import Mathlib

/-!
# NeoUrl: URL decomposition and HTTP request serialisation

A shallow embedding of `neourl.hpp`.

* A `std::string` is a `List Char`: one list element per `char` of the string, so
  `List.length` is `std::string::length` (the byte length).
* `std::regex_match` with the default ECMAScript grammar is embedded as a backtracking matcher
  over the pattern constructs which `URL::parseURL` uses: alternatives are tried in priority
  order, quantifiers are greedy, and the first complete match gives the capture groups.
* `Request::performRequest` is the POSIX branch (`#ifndef _WIN32`); the results of the system
  calls are supplied by a `Transport` record.
-/

set_option autoImplicit false

namespace NeoUrl

/-- The C++ `std::string`: a sequence of `char`. -/
abbrev Str := List Char

/-! ## `std::regex` (ECMAScript grammar), the fragment used by `parseURL` -/

/-- Pattern terms that match exactly one character. -/
inductive Atom where
  /-- A literal character such as `h` or `\?`. -/
  | chr (c : Char)
  /-- A negated bracket expression `[^...]`. -/
  | notIn (cs : List Char)
  /-- The wildcard `.`: any character except the line terminators. -/
  | any
deriving Repr, DecidableEq

/-- Regular expressions: assertions, atoms, greedy quantifiers, sequence, capture groups. -/
inductive Re where
  /-- The assertion `^`. -/
  | bol
  /-- The assertion `$`. -/
  | eol
  /-- A one-character term. -/
  | atom (a : Atom)
  /-- Greedy `a*`. -/
  | star (a : Atom)
  /-- Greedy `a+`. -/
  | plus (a : Atom)
  /-- Greedy `r?`. -/
  | opt (r : Re)
  /-- Concatenation `r s`. -/
  | seq (r s : Re)
  /-- Capture group number `i`: `(r)`. -/
  | group (i : Nat) (r : Re)
deriving Repr, DecidableEq

/-- Line terminators of a `char` subject: the wildcard `.` rejects `\n` and `\r`. -/
def isLineTerminator (c : Char) : Bool :=
  c == '\n' || c == '\r'

/-- Does the one-character term accept `c`? -/
def Atom.test : Atom → Char → Bool
  | .chr d, c => c == d
  | .notIn cs, c => !(cs.contains c)
  | .any, c => !(isLineTerminator c)

/-- The state of the capture groups: `none` for a group that did not take part in the match. -/
abbrev Caps := Nat → Option Str

/-- Record the text of group `i`. -/
def Caps.set (c : Caps) (i : Nat) (s : Str) : Caps :=
  fun j => if j = i then some s else c j

/-- Greedy iteration of a one-character term: consume as many characters as possible, and give
back one character at a time while the continuation `k` fails. -/
def matchStar {α : Type} (a : Atom) (k : Str → Option α) : Str → Option α
  | [] => k []
  | c :: cs =>
    if a.test c then (matchStar a k cs).orElse (fun _ => k (c :: cs)) else k (c :: cs)

/-- The backtracking matcher, in continuation-passing style. `full` is the length of the whole
subject, `s` the unread rest of it, `c` the captures so far, `k` the rest of the match. -/
def Re.run (full : Nat) : Re → Str → Caps → (Str → Caps → Option Caps) → Option Caps
  | .bol, s, c, k => if s.length = full then k s c else none
  | .eol, s, c, k => if s.isEmpty then k s c else none
  | .atom a, s, c, k =>
    match s with
    | [] => none
    | x :: xs => if a.test x then k xs c else none
  | .star a, s, c, k => matchStar a (fun s1 => k s1 c) s
  | .plus a, s, c, k =>
    match s with
    | [] => none
    | x :: xs => if a.test x then matchStar a (fun s1 => k s1 c) xs else none
  | .opt r, s, c, k =>
    (r.run full s c (fun s1 c1 => if s1.length = s.length then none else k s1 c1)).orElse
      (fun _ => k s c)
  | .seq r1 r2, s, c, k => r1.run full s c (fun s1 c1 => r2.run full s1 c1 k)
  | .group i r, s, c, k =>
    r.run full s c (fun s1 c1 => k s1 (c1.set i (s.take (s.length - s1.length))))

/-- A literal character as a regular expression. -/
def Re.ch (c : Char) : Re :=
  .atom (.chr c)

/-- The C++ `std::regex_match(s, matches, re)`: the whole of `s` has to be matched. The result is
the capture state of the first match found, or `none` when there is no match. -/
def regex_match (s : Str) (re : Re) : Option Caps :=
  re.run s.length s (fun _ => none) (fun s1 c1 => if s1.isEmpty then some c1 else none)

/-- The conversion of `matches[i]` to `std::string`: an unmatched group gives the empty string. -/
def Caps.str (c : Caps) (i : Nat) : Str :=
  (c i).getD []

/-! ## `class URL` -/

/-- The pattern of `URL::parseURL`: `^(https?)://([^/]+)([^?#]*)(\?[^#]*)?(#.*)?$`. -/
def urlRegex : Re :=
  .seq .bol <|
  .seq (.group 1 (.seq (.ch 'h') <| .seq (.ch 't') <| .seq (.ch 't') <| .seq (.ch 'p') <|
    .opt (.ch 's'))) <|
  .seq (.ch ':') <| .seq (.ch '/') <| .seq (.ch '/') <|
  .seq (.group 2 (.plus (.notIn ['/']))) <|
  .seq (.group 3 (.star (.notIn ['?', '#']))) <|
  .seq (.opt (.group 4 (.seq (.ch '?') (.star (.notIn ['#']))))) <|
  .seq (.opt (.group 5 (.seq (.ch '#') (.star .any))))
  .eol

/-- The data members of `class URL`. -/
structure URL where
  /-- Full raw URL. -/
  url : Str
  /-- Protocol (http/https). -/
  protocol : Str := []
  /-- Domain. -/
  domain : Str := []
  /-- Path. -/
  path : Str := []
  /-- Query. -/
  query : Str := []
deriving Repr, DecidableEq

/-- The member function `URL::parseURL`: on a match the four fields are assigned from groups 1 to 4;
otherwise only the diagnostic is written and the fields stay as they are. -/
def URL.parseURL (self : URL) : URL :=
  match regex_match self.url urlRegex with
  | some m =>
    { self with
      protocol := m.str 1
      domain := m.str 2
      path := m.str 3
      query := m.str 4 }
  | none => self

/-- The constructor `URL::URL(std::string url)`: the string members are default-initialised
(empty) and `parseURL` is called. -/
def URL.new (url : Str) : URL :=
  URL.parseURL { url := url }

/-- The getter `URL::getProtocol`. -/
def URL.getProtocol (self : URL) : Str := self.protocol

/-- The getter `URL::getDomain`. -/
def URL.getDomain (self : URL) : Str := self.domain

/-- The getter `URL::getPath`. -/
def URL.getPath (self : URL) : Str := self.path

/-- The getter `URL::getQuery`. -/
def URL.getQuery (self : URL) : Str := self.query

/-! ## `enum class statuscode` and `struct Response` -/

/-- The type `enum class statuscode : int`: a value of the underlying type `int`. -/
abbrev statuscode := Int

namespace statuscode

def Continue : statuscode := 0x64
def SwitchingProtocols : statuscode := 0x65
def Processing : statuscode := 0x66
def EarlyHints : statuscode := 0x67
def OK : statuscode := 0xC8
def Created : statuscode := 0xC9
def Accepted : statuscode := 0xCA
def NonAuthoritativeInformation : statuscode := 0xCB
def NoContent : statuscode := 0xCC
def ResetContent : statuscode := 0xCD
def PartialContent : statuscode := 0xCE
def MultiStatus : statuscode := 0xCF
def AlreadyReported : statuscode := 0xD0
def IMUsed : statuscode := 0xE2
def MultipleChoices : statuscode := 0x12C
def MovedPermanently : statuscode := 0x12D
def Found : statuscode := 0x12E
def SeeOther : statuscode := 0x12F
def NotModified : statuscode := 0x130
def UseProxy : statuscode := 0x131
def TemporaryRedirect : statuscode := 0x133
def PermanentRedirect : statuscode := 0x134
def BadRequest : statuscode := 0x190
def Unauthorized : statuscode := 0x191
def PaymentRequired : statuscode := 0x192
def Forbidden : statuscode := 0x193
def NotFound : statuscode := 0x194
def MethodNotAllowed : statuscode := 0x195
def NotAcceptable : statuscode := 0x195
def ProxyAuthenticationRequired : statuscode := 0x197
def RequestTimeout : statuscode := 0x198
def Conflict : statuscode := 0x199
def Gone : statuscode := 0x19A
def LengthRequired : statuscode := 0x19B
def PreconditionFailed : statuscode := 0x19C
def PayloadTooLarge : statuscode := 0x19D
def URITooLong : statuscode := 0x19E
def UnsupportedMediaType : statuscode := 0x19F
def RangeNotSatisfiable : statuscode := 0x1A0
def ExpectationFailed : statuscode := 0x1A1
def ImATeapot : statuscode := 0x1A2
def MisdirectedRequest : statuscode := 0x1A5
def UnprocessableEntity : statuscode := 0x1A6
def Locked : statuscode := 0x1A7
def FailedDependency : statuscode := 0x1A8
def UpgradeRequired : statuscode := 0x1AA
def PreconditionRequired : statuscode := 0x1AC
def TooManyRequests : statuscode := 0x1AD
def RequestHeaderFieldsTooLarge : statuscode := 0x1AF
def UnavailableForLegalReasons : statuscode := 0x1C3
def InternalServerError : statuscode := 0x1F4
def NotImplemented : statuscode := 0x1F5
def BadGateway : statuscode := 0x1F6
def ServiceUnavailable : statuscode := 0x1F7
def GatewayTimeout : statuscode := 0x1F8
def HTTPVersionNotSupported : statuscode := 0x1F9
def VariantAlsoNegotiates : statuscode := 0x1FA
def InsufficientStorage : statuscode := 0x1FB
def LoopDetected : statuscode := 0x1FC
def NotExtended : statuscode := 0x1FE
def NetworkAuthenticationRequired : statuscode := 0x1FF
def Failed : statuscode := -0x1

/-- The enumerators of `enum class statuscode`, in the order of the source, each with its
value. -/
def enumerators : List (String × statuscode) :=
  [
    ("Continue", Continue), ("SwitchingProtocols", SwitchingProtocols), ("Processing", Processing),
    ("EarlyHints", EarlyHints), ("OK", OK), ("Created", Created), ("Accepted", Accepted),
    ("NonAuthoritativeInformation", NonAuthoritativeInformation), ("NoContent", NoContent),
    ("ResetContent", ResetContent), ("PartialContent", PartialContent),
    ("MultiStatus", MultiStatus), ("AlreadyReported", AlreadyReported), ("IMUsed", IMUsed),
    ("MultipleChoices", MultipleChoices), ("MovedPermanently", MovedPermanently), ("Found", Found),
    ("SeeOther", SeeOther), ("NotModified", NotModified), ("UseProxy", UseProxy),
    ("TemporaryRedirect", TemporaryRedirect), ("PermanentRedirect", PermanentRedirect),
    ("BadRequest", BadRequest), ("Unauthorized", Unauthorized),
    ("PaymentRequired", PaymentRequired), ("Forbidden", Forbidden), ("NotFound", NotFound),
    ("MethodNotAllowed", MethodNotAllowed), ("NotAcceptable", NotAcceptable),
    ("ProxyAuthenticationRequired", ProxyAuthenticationRequired),
    ("RequestTimeout", RequestTimeout), ("Conflict", Conflict), ("Gone", Gone),
    ("LengthRequired", LengthRequired), ("PreconditionFailed", PreconditionFailed),
    ("PayloadTooLarge", PayloadTooLarge), ("URITooLong", URITooLong),
    ("UnsupportedMediaType", UnsupportedMediaType), ("RangeNotSatisfiable", RangeNotSatisfiable),
    ("ExpectationFailed", ExpectationFailed), ("ImATeapot", ImATeapot),
    ("MisdirectedRequest", MisdirectedRequest), ("UnprocessableEntity", UnprocessableEntity),
    ("Locked", Locked), ("FailedDependency", FailedDependency),
    ("UpgradeRequired", UpgradeRequired), ("PreconditionRequired", PreconditionRequired),
    ("TooManyRequests", TooManyRequests),
    ("RequestHeaderFieldsTooLarge", RequestHeaderFieldsTooLarge),
    ("UnavailableForLegalReasons", UnavailableForLegalReasons),
    ("InternalServerError", InternalServerError), ("NotImplemented", NotImplemented),
    ("BadGateway", BadGateway), ("ServiceUnavailable", ServiceUnavailable),
    ("GatewayTimeout", GatewayTimeout), ("HTTPVersionNotSupported", HTTPVersionNotSupported),
    ("VariantAlsoNegotiates", VariantAlsoNegotiates), ("InsufficientStorage", InsufficientStorage),
    ("LoopDetected", LoopDetected), ("NotExtended", NotExtended),
    ("NetworkAuthenticationRequired", NetworkAuthenticationRequired), ("Failed", Failed)
  ]

end statuscode

/-- The structure `Response`: raw response data and HTTP status code. -/
structure Response where
  /-- Raw response data. -/
  raw : Str
  /-- HTTP status code. -/
  status : statuscode
deriving Repr, DecidableEq

/-! ## `std::string` and `<string>` library functions used by `performRequest` -/

/-- The C++ `std::to_string` of an unsigned value: its decimal digits. -/
def to_string (n : Nat) : Str :=
  Nat.toDigits 10 n

/-- Scan for `needle` from the front of `s`; `i` is the index of the first character of `s`. -/
def findAux (needle : Str) : Str → Nat → Option Nat
  | [], i => if needle.isEmpty then some i else none
  | c :: cs, i => if needle.isPrefixOf (c :: cs) then some i else findAux needle cs (i + 1)

/-- The C++ `s.find(needle, pos)`: the least index `≥ pos` at which `needle` occurs in `s`;
`none` is `std::string::npos`. -/
def find (s needle : Str) (pos : Nat := 0) : Option Nat :=
  if pos ≤ s.length then findAux needle (s.drop pos) pos else none

/-- The C++ `s.substr(pos, count)` for `pos ≤ s.length()` (both calls of `performRequest` are
such). -/
def substr (s : Str) (pos count : Nat) : Str :=
  (s.drop pos).take count

/-- The exceptions which `std::stoi` throws. -/
inductive Exn where
  /-- The exception `std::invalid_argument`: no conversion could be performed. -/
  | invalid_argument
  /-- The exception `std::out_of_range`: the value does not fit an `int`. -/
  | out_of_range
deriving Repr, DecidableEq

/-- The C `isspace` in the default locale. -/
def isspace (c : Char) : Bool :=
  c == ' ' || c == '\t' || c == '\n' || c == '\x0b' || c == '\x0c' || c == '\r'

/-- The value of a run of decimal digits. -/
def digitsValue (ds : Str) : Nat :=
  ds.foldl (fun acc d => 10 * acc + (d.toNat - '0'.toNat)) 0

/-- The conversion step of `std::stoi`: `ds` is the run of digits found behind the optional
sign. No digits: `std::invalid_argument`; a value outside `int`: `std::out_of_range`. -/
def stoiValue (negative : Bool) (ds : Str) : Except Exn Int :=
  if ds.isEmpty then .error .invalid_argument
  else
    let v : Int := if negative then -(digitsValue ds : Int) else (digitsValue ds : Int)
    if v < -2147483648 ∨ 2147483647 < v then .error .out_of_range else .ok v

/-- The C++ `std::stoi(str)` (base 10): leading white space is skipped, an optional sign is read,
then the longest run of decimal digits is converted; what follows the digits is ignored. -/
def stoi (str : Str) : Except Exn Int :=
  match str.dropWhile isspace with
  | '-' :: r => stoiValue true (r.takeWhile Char.isDigit)
  | '+' :: r => stoiValue false (r.takeWhile Char.isDigit)
  | r => stoiValue false (r.takeWhile Char.isDigit)

/-! ## `class Request` (the branch `#ifndef _WIN32`) -/

/-- The result of one call `read(sockfd, buffer, sizeof(buffer))`. -/
inductive ReadResult where
  /-- The call stored `chunk` in the buffer and returned `chunk.length`. -/
  | bytes (chunk : Str)
  /-- The call failed and returned `-1`. -/
  | error
deriving Repr, DecidableEq

/-- What the operating system and the peer do during one call of `performRequest`. -/
structure Transport where
  /-- The descriptors that are open when the call starts. -/
  openFds : List Int
  /-- The value returned by `socket(AF_INET, SOCK_STREAM, 0)`. -/
  socket : Int
  /-- Whether `gethostbyname` returned a host entry (`server != NULL`). -/
  gethostbyname : Bool
  /-- The value returned by `connect`. -/
  connect : Int
  /-- The value returned by `write`. -/
  write : Int
  /-- The results of the successive calls of `read`; once the list is used up the peer has closed
  the connection and `read` returns `0`. -/
  reads : List ReadResult
deriving Repr, DecidableEq

/-- The class `Request`: it holds one `URL`. -/
structure Request where
  /-- URL object. -/
  url : URL
deriving Repr, DecidableEq

/-- The serialisation at the head of `performRequest` ("Constructing request data"). -/
def Request.requestData (self : Request) (method : Str) (data : Str := []) (json : Str := []) :
    Str :=
  let requestData := method ++ " ".toList ++ self.url.getPath ++ self.url.getQuery
    ++ " HTTP/1.1\r\n".toList
  let requestData := requestData ++ ("Host: ".toList ++ self.url.getDomain ++ "\r\n".toList)
  let requestData := requestData ++ "Connection: close\r\n".toList
  let requestData :=
    if !json.isEmpty then
      requestData ++ ("Content-Length: ".toList ++ to_string json.length ++ "\r\n".toList)
        ++ "Content-Type: application/json\r\n".toList
        ++ "\r\n".toList
        ++ json
    else requestData
  let requestData :=
    if !data.isEmpty then
      requestData ++ ("Content-Length: ".toList ++ to_string data.length ++ "\r\n".toList)
        ++ "Content-Type: application/x-www-form-urlencoded\r\n".toList
        ++ "\r\n".toList
        ++ data
    else requestData
  requestData

/-- The block "Parsing first line of response to extract status code" of the loop, entered once
`responseData` holds a `\r\n` at index `endOfLine`: when the first line has two spaces, the text
between them is handed to `std::stoi` and the `int` becomes the status; otherwise the status
stays `status`, the value already held by `response.status`. -/
def parseStatus (responseData : Str) (endOfLine : Nat) (status : statuscode) :
    Except Exn statuscode :=
  let firstLine := substr responseData 0 endOfLine
  match find firstLine " ".toList with
  | some statusCodeStart =>
    match find firstLine " ".toList (statusCodeStart + 1) with
    | some statusCodeEnd =>
      let statusCodeStr := substr firstLine (statusCodeStart + 1)
        (statusCodeEnd - statusCodeStart - 1)
      stoi statusCodeStr
    | none => .ok status
  | none => .ok status

/-- The loop "Receiving response": `reads` are the results of the calls of `read` still to come,
`responseData` the bytes accumulated so far, `status` the current `response.status`. The result
is the final `responseData` and status, or the exception thrown by `std::stoi`. -/
def readLoop : List ReadResult → Str → statuscode → Except Exn (Str × statuscode)
  | [], responseData, status => .ok (responseData, status)
  | .error :: _, responseData, status => .ok (responseData, status)
  | .bytes chunk :: rest, responseData, status =>
    if chunk.isEmpty then .ok (responseData, status)
    else
      let responseData := responseData ++ chunk
      match find responseData "\r\n".toList with
      | some endOfLine =>
        match parseStatus responseData endOfLine status with
        | .ok st => .ok (responseData, st)
        | .error e => .error e
      | none => readLoop rest responseData status

/-- What a call of `performRequest` leaves behind. -/
structure Outcome where
  /-- The `Response` returned, or the exception that left the function. -/
  response : Except Exn Response
  /-- The request as serialised at the head of the call. -/
  requestData : Str
  /-- Whether the call got as far as handing `requestData` to `write`. -/
  written : Bool
  /-- The descriptors that are open when the call is over. -/
  openFds : List Int

/-- The member function `Request::performRequest`, POSIX branch. -/
def Request.performRequest (self : Request) (t : Transport) (method : Str) (data : Str := [])
    (json : Str := []) : Outcome :=
  let requestData := self.requestData method data json
  let response : Response := { raw := [], status := statuscode.Failed }
  if t.socket < 0 then
    { response := .ok response, requestData := requestData, written := false
      openFds := t.openFds }
  else
    let fds := t.socket :: t.openFds
    if !t.gethostbyname then
      { response := .ok response, requestData := requestData, written := false, openFds := fds }
    else if t.connect < 0 then
      { response := .ok response, requestData := requestData, written := false, openFds := fds }
    else if t.write < 0 then
      { response := .ok response, requestData := requestData, written := true, openFds := fds }
    else
      match readLoop t.reads [] response.status with
      | .error e =>
        { response := .error e, requestData := requestData, written := true, openFds := fds }
      | .ok (responseData, status) =>
        { response := .ok { raw := responseData, status := status }
          requestData := requestData
          written := true
          openFds := fds.erase t.socket }

/-- The member function `Request::get`. -/
def Request.get (self : Request) (t : Transport) (postData : Str := []) (json : Str := []) :
    Outcome :=
  self.performRequest t "GET".toList postData json

/-- The member function `Request::post`. -/
def Request.post (self : Request) (t : Transport) (postData : Str := []) (json : Str := []) :
    Outcome :=
  self.performRequest t "POST".toList postData json

/-- The member function `Request::put`. -/
def Request.put (self : Request) (t : Transport) (postData : Str := []) (json : Str := []) :
    Outcome :=
  self.performRequest t "PUT".toList postData json

/-- The member function `Request::del`. -/
def Request.del (self : Request) (t : Transport) (postData : Str := []) (json : Str := []) :
    Outcome :=
  self.performRequest t "DELETE".toList postData json

/-! ## Declarative reading of the patterns -/

/-- The pattern `r` can match the text between `s` and its suffix `s1`, turning the captures `c`
into `c1` (the declarative counterpart of `Re.run`, without priorities). -/
def Re.Matches (full : Nat) : Re → Str → Caps → Str → Caps → Prop
  | .bol, s, c, s1, c1 => s.length = full ∧ s1 = s ∧ c1 = c
  | .eol, s, c, s1, c1 => s = [] ∧ s1 = s ∧ c1 = c
  | .atom a, s, c, s1, c1 => ∃ x, a.test x = true ∧ s = x :: s1 ∧ c1 = c
  | .star a, s, c, s1, c1 => ∃ pre, (∀ x ∈ pre, a.test x = true) ∧ s = pre ++ s1 ∧ c1 = c
  | .plus a, s, c, s1, c1 =>
    ∃ x pre, a.test x = true ∧ (∀ y ∈ pre, a.test y = true) ∧ s = x :: pre ++ s1 ∧ c1 = c
  | .opt r, s, c, s1, c1 =>
    (r.Matches full s c s1 c1 ∧ s1.length ≠ s.length) ∨ (s1 = s ∧ c1 = c)
  | .seq r1 r2, s, c, s1, c1 =>
    ∃ s2 c2, r1.Matches full s c s2 c2 ∧ r2.Matches full s2 c2 s1 c1
  | .group i r, s, c, s1, c1 =>
    ∃ c2, r.Matches full s c s1 c2 ∧ c1 = c2.set i (s.take (s.length - s1.length))

/-- The captures after an optional group: group `i` is set when its text `s` is not empty. -/
def Caps.setOpt (c : Caps) (i : Nat) (s : Str) : Caps :=
  if s.isEmpty then c else c.set i s

/-- The part of the URL pattern behind the scheme: `://([^/]+)([^?#]*)(\?[^#]*)?(#.*)?$`. -/
def urlAfterScheme : Re :=
  .seq (.ch ':') <| .seq (.ch '/') <| .seq (.ch '/') <|
  .seq (.group 2 (.plus (.notIn ['/']))) <|
  .seq (.group 3 (.star (.notIn ['?', '#']))) <|
  .seq (.opt (.group 4 (.seq (.ch '?') (.star (.notIn ['#']))))) <|
  .seq (.opt (.group 5 (.seq (.ch '#') (.star .any))))
  .eol

/-- The status code table of the specification (symbol and decimal value), entry by entry as the
specification lists it. -/
def specStatusCodeTable : List (String × Int) :=
  [
    ("Continue", 100), ("SwitchingProtocols", 101), ("Processing", 102), ("EarlyHints", 103),
    ("OK", 200), ("Created", 201), ("Accepted", 202), ("NonAuthoritativeInformation", 203),
    ("NoContent", 204), ("ResetContent", 205), ("PartialContent", 206), ("MultiStatus", 207),
    ("AlreadyReported", 208), ("IMUsed", 226), ("MultipleChoices", 300), ("MovedPermanently", 301),
    ("Found", 302), ("SeeOther", 303), ("NotModified", 304), ("UseProxy", 305),
    ("TemporaryRedirect", 307), ("PermanentRedirect", 308), ("BadRequest", 400),
    ("Unauthorized", 401), ("PaymentRequired", 402), ("Forbidden", 403), ("NotFound", 404),
    ("MethodNotAllowed", 405), ("NotAcceptable", 405), ("ProxyAuthenticationRequired", 407),
    ("RequestTimeout", 408), ("Conflict", 409), ("Gone", 410), ("LengthRequired", 411),
    ("PreconditionFailed", 412), ("PayloadTooLarge", 413), ("URITooLong", 414),
    ("UnsupportedMediaType", 415), ("RangeNotSatisfiable", 416), ("ExpectationFailed", 417),
    ("ImATeapot", 418), ("MisdirectedRequest", 421), ("UnprocessableEntity", 422), ("Locked", 423),
    ("FailedDependency", 424), ("UpgradeRequired", 426), ("PreconditionRequired", 428),
    ("TooManyRequests", 429), ("RequestHeaderFieldsTooLarge", 431),
    ("UnavailableForLegalReasons", 451), ("InternalServerError", 500), ("NotImplemented", 501),
    ("BadGateway", 502), ("ServiceUnavailable", 503), ("GatewayTimeout", 504),
    ("HTTPVersionNotSupported", 505), ("VariantAlsoNegotiates", 506), ("InsufficientStorage", 507),
    ("LoopDetected", 508), ("NotExtended", 510), ("NetworkAuthenticationRequired", 511),
    ("Failed", -1)
  ]

/-! ## The matcher -/

theorem matchStar_some {α : Type} (a : Atom) (k : Str → Option α) (out : α) :
    ∀ s : Str, matchStar a k s = some out →
      ∃ pre post, s = pre ++ post ∧ (∀ x ∈ pre, a.test x = true) ∧ k post = some out
  | [], h => ⟨[], [], rfl, by simp, by simpa [matchStar] using h⟩
  | x :: xs, h => by
    unfold matchStar at h
    by_cases hx : a.test x = true
    · rw [if_pos hx] at h
      cases hrec : matchStar a k xs with
      | none =>
        rw [hrec] at h
        exact ⟨[], x :: xs, rfl, by simp, by simpa [Option.orElse] using h⟩
      | some v =>
        rw [hrec] at h
        have hv : v = out := by simpa [Option.orElse] using h
        subst hv
        obtain ⟨pre, post, hs, hpre, hk⟩ := matchStar_some a k v xs hrec
        refine ⟨x :: pre, post, by simp [hs], ?_, hk⟩
        intro y hy
        rcases List.mem_cons.1 hy with h1 | h1
        · simpa [h1] using hx
        · exact hpre y h1
    · rw [if_neg hx] at h
      exact ⟨[], x :: xs, rfl, by simp, h⟩

theorem matchStar_greedy {α : Type} (a : Atom) (k : Str → Option α) (out : α) (post : Str)
    (hk : k post = some out) (hpost : ∀ y ys, post = y :: ys → a.test y = false) :
    ∀ pre : Str, (∀ x ∈ pre, a.test x = true) → matchStar a k (pre ++ post) = some out
  | [], _ => by
    cases post with
    | nil => simpa [matchStar] using hk
    | cons y ys =>
      have hy := hpost y ys rfl
      simp [matchStar, hy, hk]
  | x :: xs, h => by
    have hx : a.test x = true := h x (List.mem_cons_self x xs)
    have hrec := matchStar_greedy a k out post hk hpost xs
      (fun y hy => h y (List.mem_cons_of_mem x hy))
    simp [matchStar, hx, hrec, Option.orElse]

/-- Soundness of the backtracking matcher: a result of `Re.run` comes from a declarative match of
the pattern followed by a successful continuation. -/
theorem Re.run_sound (full : Nat) (out : Caps) :
    ∀ (r : Re) (s : Str) (c : Caps) (k : Str → Caps → Option Caps),
      r.run full s c k = some out →
      ∃ s1 c1, r.Matches full s c s1 c1 ∧ k s1 c1 = some out
  | .bol, s, c, k, h => by
    by_cases hs : s.length = full
    · exact ⟨s, c, ⟨hs, rfl, rfl⟩, by simpa [Re.run, hs] using h⟩
    · simp [Re.run, hs] at h
  | .eol, s, c, k, h => by
    cases s with
    | nil => exact ⟨[], c, ⟨rfl, rfl, rfl⟩, by simpa [Re.run] using h⟩
    | cons x xs => simp [Re.run] at h
  | .atom a, s, c, k, h => by
    cases s with
    | nil => simp [Re.run] at h
    | cons x xs =>
      by_cases hx : a.test x = true
      · exact ⟨xs, c, ⟨x, hx, rfl, rfl⟩, by simpa [Re.run, hx] using h⟩
      · simp [Re.run, hx] at h
  | .star a, s, c, k, h => by
    obtain ⟨pre, post, hs, hpre, hk⟩ := matchStar_some a (fun s1 => k s1 c) out s h
    exact ⟨post, c, ⟨pre, hpre, hs, rfl⟩, hk⟩
  | .plus a, s, c, k, h => by
    cases s with
    | nil => simp [Re.run] at h
    | cons x xs =>
      by_cases hx : a.test x = true
      · have h2 : matchStar a (fun s1 => k s1 c) xs = some out := by
          simpa [Re.run, hx] using h
        obtain ⟨pre, post, hs, hpre, hk⟩ := matchStar_some a (fun s1 => k s1 c) out xs h2
        exact ⟨post, c, ⟨x, pre, hx, hpre, by simp [hs], rfl⟩, hk⟩
      · simp [Re.run, hx] at h
  | .opt r, s, c, k, h => by
    unfold Re.run at h
    cases hr : r.run full s c (fun s1 c1 => if s1.length = s.length then none else k s1 c1) with
    | none =>
      rw [hr] at h
      exact ⟨s, c, Or.inr ⟨rfl, rfl⟩, by simpa [Option.orElse] using h⟩
    | some v =>
      rw [hr] at h
      have hv : v = out := by simpa [Option.orElse] using h
      subst hv
      obtain ⟨s1, c1, hm, hk⟩ := Re.run_sound full v r s c _ hr
      by_cases hl : s1.length = s.length
      · simp [hl] at hk
      · exact ⟨s1, c1, Or.inl ⟨hm, hl⟩, by simpa [hl] using hk⟩
  | .seq r1 r2, s, c, k, h => by
    unfold Re.run at h
    obtain ⟨s2, c2, hm1, hk1⟩ := Re.run_sound full out r1 s c _ h
    obtain ⟨s1, c1, hm2, hk2⟩ := Re.run_sound full out r2 s2 c2 k hk1
    exact ⟨s1, c1, ⟨s2, c2, hm1, hm2⟩, hk2⟩
  | .group i r, s, c, k, h => by
    unfold Re.run at h
    obtain ⟨s1, c2, hm, hk⟩ := Re.run_sound full out r s c _ h
    exact ⟨s1, _, ⟨c2, hm, rfl⟩, hk⟩

theorem Caps.str_set (c : Caps) (i j : Nat) (s : Str) :
    (c.set i s).str j = if j = i then s else c.str j := by
  unfold Caps.str Caps.set
  by_cases h : j = i <;> simp [h]

theorem Caps.str_none (i : Nat) : Caps.str (fun _ => none) i = [] :=
  rfl

theorem take_sub_of_eq (s pre post : Str) (h : s = pre ++ post) :
    s.take (s.length - post.length) = pre := by
  subst h
  simp

/-- Every match of the URL pattern splits the subject into scheme, `://`, domain, path, optional
query and optional fragment, and groups 1 to 4 hold the first four parts. -/
theorem regex_match_urlRegex_inv (s : Str) (out : Caps)
    (h : regex_match s urlRegex = some out) :
    ∃ proto dom path query frag : Str,
      s = proto ++ [':', '/', '/'] ++ dom ++ path ++ query ++ frag ∧
      (proto = ['h', 't', 't', 'p'] ∨ proto = ['h', 't', 't', 'p', 's']) ∧
      dom ≠ [] ∧ (∀ x ∈ dom, x ≠ '/') ∧
      (∀ x ∈ path, x ≠ '?' ∧ x ≠ '#') ∧
      (query = [] ∨ ∃ q, query = '?' :: q ∧ ∀ x ∈ q, x ≠ '#') ∧
      (frag = [] ∨ ∃ f, frag = '#' :: f ∧ ∀ x ∈ f, isLineTerminator x = false) ∧
      out.str 1 = proto ∧ out.str 2 = dom ∧ out.str 3 = path ∧ out.str 4 = query := by
  obtain ⟨s1, c1, hm, hk⟩ := Re.run_sound _ _ _ _ _ _ h
  clear h
  simp only [urlRegex, Re.Matches, Re.ch, Atom.test] at hm
  obtain ⟨s0, c0, ⟨-, rfl, rfl⟩, sA, cA, hg1, t5, c5, ⟨x5, hx5, rfl, rfl⟩, t6, c6,
    ⟨x6, hx6, rfl, rfl⟩, t7, c7, ⟨x7, hx7, rfl, rfl⟩, sB, cB, hg2, sC, cC, hg3, sD, cD, hg4,
    sE, cE, hg5, rfl, rfl, rfl⟩ := hm
  obtain ⟨cg1, ⟨t1, d1, ⟨x1, hx1, rfl, rfl⟩, t2, d2, ⟨x2, hx2, rfl, rfl⟩, t3, d3,
    ⟨x3, hx3, rfl, rfl⟩, t4, d4, ⟨x4, hx4, rfl, rfl⟩, hopt⟩, hcA⟩ := hg1
  obtain ⟨cg2, ⟨y, dom, hy, hdom, rfl, rfl⟩, hcB⟩ := hg2
  obtain ⟨cg3, ⟨path, hpath, rfl, rfl⟩, hcC⟩ := hg3
  have hout : out = c1 := by simpa using hk.symm
  subst hout
  simp only [beq_iff_eq] at hx1 hx2 hx3 hx4 hx5 hx6 hx7
  subst hx1 hx2 hx3 hx4 hx5 hx6 hx7
  -- the optional `s` of group 1
  have hproto : ∃ proto : Str, (proto = ['h', 't', 't', 'p'] ∨ proto = ['h', 't', 't', 'p', 's']) ∧
      'h' :: 't' :: 't' :: 'p' :: t4 = proto ++ ':' :: '/' :: '/' :: (y :: dom ++ (path ++ sC)) ∧
      cg1 = fun _ => none := by
    rcases hopt with ⟨⟨x, hx, ht4, hc⟩, -⟩ | ⟨ht4, hc⟩
    · simp only [beq_iff_eq] at hx
      subst hx ht4
      exact ⟨_, Or.inr rfl, rfl, hc⟩
    · subst ht4
      exact ⟨_, Or.inl rfl, rfl, hc⟩
  obtain ⟨proto, hproto, hs, hcg1⟩ := hproto
  clear hopt
  rw [take_sub_of_eq _ proto _ hs] at hcA
  rw [take_sub_of_eq _ (y :: dom) _ (by simp)] at hcB
  rw [take_sub_of_eq _ path _ rfl] at hcC
  -- the optional query
  have hquery : ∃ query : Str, sC = query ++ sD ∧
      (query = [] ∨ ∃ q, query = '?' :: q ∧ ∀ x ∈ q, x ≠ '#') ∧ cD.str 1 = proto ∧
      cD.str 2 = y :: dom ∧ cD.str 3 = path ∧ cD.str 4 = query := by
    rcases hg4 with ⟨⟨c2, ⟨s2, c3, ⟨x, hx, hsC, hc3⟩, q, hq, hs2, hc2⟩, hcD⟩, -⟩ | ⟨hsD, hcD⟩
    · simp only [beq_iff_eq] at hx
      subst hx hs2 hc2 hc3
      rw [take_sub_of_eq _ ('?' :: q) _ (by simp [hsC])] at hcD
      refine ⟨'?' :: q, by simp [hsC], Or.inr ⟨q, rfl, ?_⟩, ?_⟩
      · intro x hx
        simpa using hq x hx
      · simp [hcD, hcC, hcB, hcA, hcg1, Caps.str_set]
    · refine ⟨[], by simp [hsD], Or.inl rfl, ?_⟩
      simp [hcD, hcC, hcB, hcA, hcg1, Caps.str_set, Caps.str_none]
  obtain ⟨query, hsC, hquery, hq1, hq2, hq3, hq4⟩ := hquery
  clear hg4
  -- the optional fragment
  have hfrag : (sD = [] ∨ ∃ f, sD = '#' :: f ∧ ∀ x ∈ f, isLineTerminator x = false) ∧
      out.str 1 = proto ∧ out.str 2 = y :: dom ∧ out.str 3 = path ∧ out.str 4 = query := by
    rcases hg5 with ⟨⟨c2, ⟨s2, c3, ⟨x, hx, hsD, hc3⟩, f, hf, hs2, hc2⟩, hcE⟩, -⟩ | ⟨hsD, hcE⟩
    · simp only [beq_iff_eq] at hx
      subst hx hs2 hc2 hc3
      refine ⟨Or.inr ⟨f, by simp [hsD], ?_⟩, ?_⟩
      · intro x hx
        simpa using hf x hx
      · simp [hcE, Caps.str_set, hq1, hq2, hq3, hq4]
    · subst hcE
      exact ⟨Or.inl hsD.symm, hq1, hq2, hq3, hq4⟩
  obtain ⟨hfrag, ho1, ho2, ho3, ho4⟩ := hfrag
  refine ⟨proto, y :: dom, path, query, sD, ?_, hproto, by simp, ?_, ?_, hquery, hfrag,
    ho1, ho2, ho3, ho4⟩
  · rw [hs, hsC]
    simp
  · intro x hx
    rcases List.mem_cons.1 hx with h1 | h1
    · subst h1
      simpa using hy
    · simpa using hdom x h1
  · intro x hx
    simpa using hpath x hx

theorem Re.run_seq (full : Nat) (r1 r2 : Re) (s : Str) (c : Caps)
    (k : Str → Caps → Option Caps) :
    (Re.seq r1 r2).run full s c k = r1.run full s c (fun s1 c1 => r2.run full s1 c1 k) :=
  rfl

theorem Re.run_group (full i : Nat) (r : Re) (s : Str) (c : Caps)
    (k : Str → Caps → Option Caps) :
    (Re.group i r).run full s c k =
      r.run full s c (fun s1 c1 => k s1 (c1.set i (s.take (s.length - s1.length)))) :=
  rfl

theorem Re.run_ch (full : Nat) (x : Char) (s : Str) (c : Caps) (k : Str → Caps → Option Caps) :
    (Re.ch x).run full (x :: s) c k = k s c := by
  simp [Re.ch, Re.run, Atom.test]

theorem Re.run_ch_nil (full : Nat) (x : Char) (c : Caps) (k : Str → Caps → Option Caps) :
    (Re.ch x).run full [] c k = none := by
  simp [Re.ch, Re.run]

theorem Re.run_ch_ne (full : Nat) (x y : Char) (s : Str) (c : Caps)
    (k : Str → Caps → Option Caps) (h : y ≠ x) :
    (Re.ch x).run full (y :: s) c k = none := by
  simp [Re.ch, Re.run, Atom.test, h]

theorem Re.run_star_greedy (full : Nat) (a : Atom) (pre post : Str) (c out : Caps)
    (k : Str → Caps → Option Caps) (hpre : ∀ x ∈ pre, a.test x = true)
    (hpost : ∀ y ys, post = y :: ys → a.test y = false) (hk : k post c = some out) :
    (Re.star a).run full (pre ++ post) c k = some out := by
  unfold Re.run
  exact matchStar_greedy a _ out post hk hpost pre hpre

theorem Re.run_plus_greedy (full : Nat) (a : Atom) (x : Char) (pre post : Str) (c out : Caps)
    (k : Str → Caps → Option Caps) (hx : a.test x = true) (hpre : ∀ y ∈ pre, a.test y = true)
    (hpost : ∀ y ys, post = y :: ys → a.test y = false) (hk : k post c = some out) :
    (Re.plus a).run full (x :: (pre ++ post)) c k = some out := by
  simp only [Re.run, hx, if_true]
  exact matchStar_greedy a _ out post hk hpost pre hpre

theorem Re.run_opt_taken (full : Nat) (r : Re) (s : Str) (c out : Caps)
    (k : Str → Caps → Option Caps)
    (h : r.run full s c (fun s1 c1 => if s1.length = s.length then none else k s1 c1) = some out) :
    (Re.opt r).run full s c k = some out := by
  simp [Re.run, h, Option.orElse]

theorem Re.run_opt_skipped (full : Nat) (r : Re) (s : Str) (c out : Caps)
    (k : Str → Caps → Option Caps)
    (h : r.run full s c (fun s1 c1 => if s1.length = s.length then none else k s1 c1) = none)
    (hk : k s c = some out) :
    (Re.opt r).run full s c k = some out := by
  simp [Re.run, h, hk, Option.orElse]

theorem Caps.str_setOpt_ne (c : Caps) (i j : Nat) (s : Str) (h : j ≠ i) :
    (c.setOpt i s).str j = c.str j := by
  unfold Caps.setOpt
  cases s <;> simp [Caps.str_set, h]

theorem Caps.str_setOpt_self (c : Caps) (i : Nat) (s : Str) (h : c.str i = []) :
    (c.setOpt i s).str i = s := by
  unfold Caps.setOpt
  cases s <;> simp [Caps.str_set, h]

/-- The optional fragment and the end of the subject. -/
theorem run_fragment (full : Nat) (frag : Str) (c : Caps) (k : Str → Caps → Option Caps)
    (hfrag : frag = [] ∨ ∃ f, frag = '#' :: f ∧ ∀ x ∈ f, isLineTerminator x = false)
    (out : Caps) (hk : k [] (c.setOpt 5 frag) = some out) :
    Re.run full (.opt (.group 5 (.seq (.ch '#') (.star .any)))) frag c k = some out := by
  rcases hfrag with rfl | ⟨f, rfl, hf⟩
  · apply Re.run_opt_skipped
    · rw [Re.run_group, Re.run_seq, Re.run_ch_nil]
    · simpa [Caps.setOpt] using hk
  · apply Re.run_opt_taken
    rw [Re.run_group, Re.run_seq, Re.run_ch]
    have := Re.run_star_greedy full .any f [] c out
    rw [List.append_nil] at this
    apply this
    · intro x hx
      simp [Atom.test, hf x hx]
    · simp
    · simpa [Caps.setOpt] using hk

/-- The optional query. -/
theorem run_query (full : Nat) (query post : Str) (c : Caps) (k : Str → Caps → Option Caps)
    (hquery : query = [] ∨ ∃ q, query = '?' :: q ∧ ∀ x ∈ q, x ≠ '#')
    (hpost : ∀ y ys, post = y :: ys → y = '#')
    (out : Caps) (hk : k post (c.setOpt 4 query) = some out) :
    Re.run full (.opt (.group 4 (.seq (.ch '?') (.star (.notIn ['#']))))) (query ++ post) c k
      = some out := by
  rcases hquery with rfl | ⟨q, rfl, hq⟩
  · apply Re.run_opt_skipped
    · rw [Re.run_group, Re.run_seq]
      cases post with
      | nil => exact Re.run_ch_nil _ _ _ _
      | cons y ys =>
        have hy := hpost y ys rfl
        subst hy
        exact Re.run_ch_ne _ _ _ _ _ _ (by decide)
    · simpa [Caps.setOpt] using hk
  · apply Re.run_opt_taken
    rw [Re.run_group, Re.run_seq, List.cons_append, Re.run_ch]
    apply Re.run_star_greedy
    · intro x hx
      simp [Atom.test, hq x hx]
    · intro y ys hy
      have := hpost y ys hy
      subst this
      simp [Atom.test]
    · have ht : List.take (('?' :: (q ++ post)).length - post.length) ('?' :: (q ++ post))
          = '?' :: q := take_sub_of_eq _ ('?' :: q) post (by simp)
      have hl : ¬ post.length = ('?' :: (q ++ post)).length := by
        simp only [List.length_cons, List.length_append]
        omega
      rw [ht, if_neg hl]
      simpa [Caps.setOpt] using hk

theorem Re.run_bol (full : Nat) (s : Str) (c : Caps) (k : Str → Caps → Option Caps)
    (h : s.length = full) : Re.bol.run full s c k = k s c := by
  simp [Re.run, h]

theorem urlRegex_eq : urlRegex =
    .seq .bol (.seq (.group 1 (.seq (.ch 'h') <| .seq (.ch 't') <| .seq (.ch 't') <|
      .seq (.ch 'p') <| .opt (.ch 's'))) urlAfterScheme) :=
  rfl

/-- Evaluation of the matcher behind the scheme along the greedy choices. -/
theorem run_urlAfterScheme (full : Nat) (d : Char) (ds path query frag : Str) (c : Caps)
    (hd : d ≠ '/') (hds : ∀ x ∈ ds, x ≠ '/')
    (hrest : ∀ y ys, path ++ (query ++ frag) = y :: ys → y = '/')
    (hpath : ∀ x ∈ path, x ≠ '?' ∧ x ≠ '#')
    (hquery : query = [] ∨ ∃ q, query = '?' :: q ∧ ∀ x ∈ q, x ≠ '#')
    (hfrag : frag = [] ∨ ∃ f, frag = '#' :: f ∧ ∀ x ∈ f, isLineTerminator x = false) :
    urlAfterScheme.run full (':' :: '/' :: '/' :: d :: (ds ++ (path ++ (query ++ frag)))) c
      (fun s1 c1 => if s1.isEmpty then some c1 else none)
      = some ((((c.set 2 (d :: ds)).set 3 path).setOpt 4 query).setOpt 5 frag) := by
  unfold urlAfterScheme
  rw [Re.run_seq, Re.run_ch, Re.run_seq, Re.run_ch, Re.run_seq, Re.run_ch, Re.run_seq,
    Re.run_group]
  apply Re.run_plus_greedy
  · simp [Atom.test, hd]
  · intro x hx
    simp [Atom.test, hds x hx]
  · intro y ys hy
    have := hrest y ys hy
    subst this
    simp [Atom.test]
  rw [take_sub_of_eq _ (d :: ds) (path ++ (query ++ frag)) (by simp), Re.run_seq, Re.run_group]
  apply Re.run_star_greedy
  · intro x hx
    simp [Atom.test, hpath x hx]
  · intro y ys hy
    rcases hquery with rfl | ⟨q, rfl, -⟩
    · rcases hfrag with rfl | ⟨f, rfl, -⟩
      · simp at hy
      · simp at hy
        simp [Atom.test, ← hy.1]
    · simp at hy
      simp [Atom.test, ← hy.1]
  rw [take_sub_of_eq _ path (query ++ frag) rfl, Re.run_seq]
  apply run_query _ _ _ _ _ hquery
  · intro y ys hy
    rcases hfrag with rfl | ⟨f, rfl, -⟩
    · simp at hy
    · simp at hy
      exact hy.1.symm
  rw [Re.run_seq]
  apply run_fragment _ _ _ _ hfrag
  simp [Re.run]

/-- Evaluation of `regex_match` on a subject with scheme, host and a rest which is empty or
begins with `/`: the greedy choices succeed, so they are the match that is reported. -/
theorem regex_match_urlRegex_greedy (proto : Str) (d : Char) (ds path query frag : Str)
    (hproto : proto = ['h', 't', 't', 'p'] ∨ proto = ['h', 't', 't', 'p', 's'])
    (hd : d ≠ '/') (hds : ∀ x ∈ ds, x ≠ '/')
    (hrest : ∀ y ys, path ++ (query ++ frag) = y :: ys → y = '/')
    (hpath : ∀ x ∈ path, x ≠ '?' ∧ x ≠ '#')
    (hquery : query = [] ∨ ∃ q, query = '?' :: q ∧ ∀ x ∈ q, x ≠ '#')
    (hfrag : frag = [] ∨ ∃ f, frag = '#' :: f ∧ ∀ x ∈ f, isLineTerminator x = false) :
    regex_match (proto ++ ':' :: '/' :: '/' :: d :: (ds ++ (path ++ (query ++ frag)))) urlRegex
      = some (((((Caps.set (fun _ => none) 1 proto).set 2 (d :: ds)).set 3 path).setOpt 4
          query).setOpt 5 frag) := by
  unfold regex_match
  rw [urlRegex_eq, Re.run_seq, Re.run_bol _ _ _ _ rfl, Re.run_seq, Re.run_group]
  rcases hproto with rfl | rfl
  · simp only [List.cons_append, List.nil_append]
    rw [Re.run_seq, Re.run_ch, Re.run_seq, Re.run_ch, Re.run_seq, Re.run_ch, Re.run_seq,
      Re.run_ch]
    apply Re.run_opt_skipped
    · exact Re.run_ch_ne _ _ _ _ _ _ (by decide)
    rw [take_sub_of_eq ('h' :: 't' :: 't' :: 'p' :: ':' :: '/' :: '/' :: d :: _)
      ['h', 't', 't', 'p'] (':' :: '/' :: '/' :: d :: _) rfl]
    exact run_urlAfterScheme _ d ds path query frag _ hd hds hrest hpath hquery hfrag
  · simp only [List.cons_append, List.nil_append]
    rw [Re.run_seq, Re.run_ch, Re.run_seq, Re.run_ch, Re.run_seq, Re.run_ch, Re.run_seq,
      Re.run_ch]
    apply Re.run_opt_taken
    rw [Re.run_ch, if_neg (by simp),
      take_sub_of_eq ('h' :: 't' :: 't' :: 'p' :: 's' :: ':' :: '/' :: '/' :: d :: _)
        ['h', 't', 't', 'p', 's'] (':' :: '/' :: '/' :: d :: _) rfl]
    exact run_urlAfterScheme _ d ds path query frag _ hd hds hrest hpath hquery hfrag

/-- The fields of the constructed `URL` for a subject with scheme, non-empty host without `/`,
and a rest (path, query, fragment) which is empty or begins with `/`. -/
theorem URL.new_greedy (proto dom path query frag : Str)
    (hproto : proto = ['h', 't', 't', 'p'] ∨ proto = ['h', 't', 't', 'p', 's'])
    (hdom : dom ≠ []) (hdom2 : ∀ x ∈ dom, x ≠ '/')
    (hrest : ∀ y ys, path ++ (query ++ frag) = y :: ys → y = '/')
    (hpath : ∀ x ∈ path, x ≠ '?' ∧ x ≠ '#')
    (hquery : query = [] ∨ ∃ q, query = '?' :: q ∧ ∀ x ∈ q, x ≠ '#')
    (hfrag : frag = [] ∨ ∃ f, frag = '#' :: f ∧ ∀ x ∈ f, isLineTerminator x = false) :
    URL.new (proto ++ [':', '/', '/'] ++ dom ++ path ++ query ++ frag) =
      { url := proto ++ [':', '/', '/'] ++ dom ++ path ++ query ++ frag
        protocol := proto, domain := dom, path := path, query := query } := by
  cases dom with
  | nil => exact absurd rfl hdom
  | cons d ds =>
    have hm := regex_match_urlRegex_greedy proto d ds path query frag hproto
      (hdom2 d (List.mem_cons_self d ds)) (fun x hx => hdom2 x (List.mem_cons_of_mem d hx))
      hrest hpath hquery hfrag
    have hs : proto ++ [':', '/', '/'] ++ d :: ds ++ path ++ query ++ frag
        = proto ++ ':' :: '/' :: '/' :: d :: (ds ++ (path ++ (query ++ frag))) := by
      simp
    unfold URL.new URL.parseURL
    simp only [hs, hm]
    simp [Caps.str_setOpt_ne, Caps.str_setOpt_self, Caps.str_set, Caps.str_none]

/-- The constructed `URL` is either untouched (no match) or holds the parts of a match. -/
theorem URL.new_cases (input : Str) :
    (regex_match input urlRegex = none ∧ URL.new input = { url := input }) ∨
    ∃ proto dom path query frag : Str,
      (regex_match input urlRegex).isSome = true ∧
      input = proto ++ [':', '/', '/'] ++ dom ++ path ++ query ++ frag ∧
      (proto = ['h', 't', 't', 'p'] ∨ proto = ['h', 't', 't', 'p', 's']) ∧
      dom ≠ [] ∧ (∀ x ∈ dom, x ≠ '/') ∧
      (∀ x ∈ path, x ≠ '?' ∧ x ≠ '#') ∧
      (query = [] ∨ ∃ q, query = '?' :: q ∧ ∀ x ∈ q, x ≠ '#') ∧
      (frag = [] ∨ ∃ f, frag = '#' :: f ∧ ∀ x ∈ f, isLineTerminator x = false) ∧
      URL.new input =
        { url := input, protocol := proto, domain := dom, path := path, query := query } := by
  cases hm : regex_match input urlRegex with
  | none =>
    left
    refine ⟨rfl, ?_⟩
    unfold URL.new URL.parseURL
    simp [hm]
  | some out =>
    right
    obtain ⟨proto, dom, path, query, frag, hs, hproto, hdom, hdom2, hpath, hquery, hfrag, h1, h2,
      h3, h4⟩ := regex_match_urlRegex_inv input out hm
    refine ⟨proto, dom, path, query, frag, rfl, hs, hproto, hdom, hdom2, hpath, hquery, hfrag, ?_⟩
    unfold URL.new URL.parseURL
    simp [hm, h1, h2, h3, h4]

theorem takeWhile_append_stop {α : Type} (p : α → Bool) (post : List α)
    (hpost : ∀ y ys, post = y :: ys → p y = false) :
    ∀ pre : List α, (∀ x ∈ pre, p x = true) → (pre ++ post).takeWhile p = pre
  | [], _ => by
    cases post with
    | nil => rfl
    | cons y ys => simp [List.takeWhile, hpost y ys rfl]
  | x :: xs, h => by
    have hx : p x = true := h x (List.mem_cons_self x xs)
    have hrec := takeWhile_append_stop p post hpost xs
      (fun y hy => h y (List.mem_cons_of_mem x hy))
    simp [List.takeWhile, hx, hrec]

/-! ## URL decomposition -/

/-- C1: for a scheme `http` or `https`, a non-empty host without `/`, `?`, `#`, a path that
begins with `/` and has no `?` or `#`, a query that is empty or `?` followed by characters other
than `#`, and a fragment that is empty or `#` followed by characters that are not line
terminators, the constructed URL has protocol = scheme, domain = host, path = path and
query = query; the fragment is dropped. -/
theorem parse_full_url (scheme host path query fragment : Str)
    (hscheme : scheme = "http".toList ∨ scheme = "https".toList)
    (hhost : host ≠ []) (hhost2 : ∀ c ∈ host, c ≠ '/' ∧ c ≠ '?' ∧ c ≠ '#')
    (hpath : ∃ p, path = '/' :: p) (hpath2 : ∀ c ∈ path, c ≠ '?' ∧ c ≠ '#')
    (hquery : query = [] ∨ ∃ q, query = '?' :: q ∧ ∀ c ∈ q, c ≠ '#')
    (hfragment : fragment = [] ∨
      ∃ f, fragment = '#' :: f ∧ ∀ c ∈ f, isLineTerminator c = false) :
    (URL.new (scheme ++ "://".toList ++ host ++ path ++ query ++ fragment)).getProtocol = scheme ∧
    (URL.new (scheme ++ "://".toList ++ host ++ path ++ query ++ fragment)).getDomain = host ∧
    (URL.new (scheme ++ "://".toList ++ host ++ path ++ query ++ fragment)).getPath = path ∧
    (URL.new (scheme ++ "://".toList ++ host ++ path ++ query ++ fragment)).getQuery = query := by
  obtain ⟨p, rfl⟩ := hpath
  have h := URL.new_greedy scheme host ('/' :: p) query fragment hscheme hhost
    (fun x hx => (hhost2 x hx).1) (by intro y ys hy; simp at hy; exact hy.1.symm) hpath2 hquery
    hfragment
  have hlit : "://".toList = [':', '/', '/'] := rfl
  rw [hlit, h]
  exact ⟨rfl, rfl, rfl, rfl⟩

/-- C1, witness: `https://example.com/a/b?x=1#frag` gives `https`, `example.com`, `/a/b`,
`?x=1`. -/
theorem parse_full_url_witness :
    (URL.new "https://example.com/a/b?x=1#frag".toList).getProtocol = "https".toList ∧
    (URL.new "https://example.com/a/b?x=1#frag".toList).getDomain = "example.com".toList ∧
    (URL.new "https://example.com/a/b?x=1#frag".toList).getPath = "/a/b".toList ∧
    (URL.new "https://example.com/a/b?x=1#frag".toList).getQuery = "?x=1".toList :=
  parse_full_url "https".toList "example.com".toList "/a/b".toList "?x=1".toList "#frag".toList
    (Or.inr rfl) (by decide) (by decide) ⟨_, rfl⟩ (by decide) (Or.inr ⟨_, rfl, by decide⟩)
    (Or.inr ⟨_, rfl, by decide⟩)

/-- C2, counterexample: `http://a#b` matches the URL grammar (the domain is `a#b`), the four
fields reassemble to the whole input `http://a#b`, but the input cut at its first `#` is
`http://a`. -/
theorem roundtrip_counterexample :
    (regex_match "http://a#b".toList urlRegex).isSome = true ∧
    (URL.new "http://a#b".toList).getProtocol ++ "://".toList
        ++ (URL.new "http://a#b".toList).getDomain ++ (URL.new "http://a#b".toList).getPath
        ++ (URL.new "http://a#b".toList).getQuery = "http://a#b".toList ∧
    "http://a#b".toList.takeWhile (fun c => c != '#') = "http://a".toList ∧
    (URL.new "http://a#b".toList).getProtocol ++ "://".toList
        ++ (URL.new "http://a#b".toList).getDomain ++ (URL.new "http://a#b".toList).getPath
        ++ (URL.new "http://a#b".toList).getQuery
      ≠ "http://a#b".toList.takeWhile (fun c => c != '#') := by
  decide

/-- C2, amended: for every input that matches the URL grammar and whose domain (group 2) has no
`#`, protocol + `://` + domain + path + query is the input cut at its first `#` (the whole
input when it has no `#`). -/
theorem roundtrip (input : Str) (hmatch : (regex_match input urlRegex).isSome = true)
    (hdomain : '#' ∉ (URL.new input).getDomain) :
    (URL.new input).getProtocol ++ "://".toList ++ (URL.new input).getDomain
        ++ (URL.new input).getPath ++ (URL.new input).getQuery
      = input.takeWhile (fun c => c != '#') := by
  rcases URL.new_cases input with ⟨hnone, -⟩ | ⟨proto, dom, path, query, frag, -, hs, hproto,
    -, -, hpath, hquery, hfrag, hu⟩
  · simp [hnone] at hmatch
  · rw [hu] at hdomain ⊢
    simp only [URL.getProtocol, URL.getDomain, URL.getPath, URL.getQuery] at hdomain ⊢
    have hlit : "://".toList = [':', '/', '/'] := rfl
    rw [hlit]
    conv_rhs => rw [hs]
    symm
    apply takeWhile_append_stop
    · intro y ys hy
      rcases hfrag with rfl | ⟨f, rfl, -⟩
      · simp at hy
      · simp at hy
        simp [← hy.1]
    · intro x hx
      simp only [List.mem_append] at hx
      have hne : x ≠ '#' := by
        rcases hx with (((hx | hx) | hx) | hx) | hx
        · rcases hproto with rfl | rfl <;> (intro hc; subst hc; simp at hx)
        · intro hc; subst hc; simp at hx
        · intro hc; subst hc; exact hdomain hx
        · exact (hpath x hx).2
        · rcases hquery with rfl | ⟨q, rfl, hq⟩
          · simp at hx
          · rcases List.mem_cons.1 hx with h1 | h1
            · subst h1; decide
            · exact hq x h1
      simpa using hne

/-- C2, witness of the amended claim: `https://example.com/a/b?x=1#frag` reassembles to
`https://example.com/a/b?x=1`. -/
theorem roundtrip_witness :
    (URL.new "https://example.com/a/b?x=1#frag".toList).getProtocol ++ "://".toList
        ++ (URL.new "https://example.com/a/b?x=1#frag".toList).getDomain
        ++ (URL.new "https://example.com/a/b?x=1#frag".toList).getPath
        ++ (URL.new "https://example.com/a/b?x=1#frag".toList).getQuery
      = "https://example.com/a/b?x=1#frag".toList.takeWhile (fun c => c != '#') :=
  roundtrip "https://example.com/a/b?x=1#frag".toList (by decide) (by decide)

/-- C3: for every input that is not `http://` or `https://` followed by at least one character
other than `/`, construction leaves protocol, domain, path and query empty. -/
theorem invalid_url_fields_empty (input : Str)
    (hbad : ¬ ∃ (c : Char) (rest : Str), c ≠ '/' ∧
      (input = "http://".toList ++ c :: rest ∨ input = "https://".toList ++ c :: rest)) :
    (URL.new input).getProtocol = [] ∧ (URL.new input).getDomain = [] ∧
    (URL.new input).getPath = [] ∧ (URL.new input).getQuery = [] := by
  rcases URL.new_cases input with ⟨-, hu⟩ | ⟨proto, dom, path, query, frag, -, hs, hproto,
    hdom, hdom2, -, -, -, -⟩
  · rw [hu]
    exact ⟨rfl, rfl, rfl, rfl⟩
  · exfalso
    apply hbad
    cases dom with
    | nil => exact absurd rfl hdom
    | cons d ds =>
      refine ⟨d, ds ++ path ++ query ++ frag, hdom2 d (List.mem_cons_self d ds), ?_⟩
      rcases hproto with rfl | rfl
      · left
        rw [hs]
        have hlit : "http://".toList = ['h', 't', 't', 'p', ':', '/', '/'] := rfl
        rw [hlit]
        simp
      · right
        rw [hs]
        have hlit : "https://".toList = ['h', 't', 't', 'p', 's', ':', '/', '/'] := rfl
        rw [hlit]
        simp

/-- C3, witness: `not a url` leaves all four fields empty. -/
theorem invalid_url_fields_empty_witness :
    (URL.new "not a url".toList).getProtocol = [] ∧ (URL.new "not a url".toList).getDomain = [] ∧
    (URL.new "not a url".toList).getPath = [] ∧ (URL.new "not a url".toList).getQuery = [] :=
  invalid_url_fields_empty "not a url".toList (by
    rintro ⟨c, rest, -, h | h⟩
    · have h2 : some 'n' = some 'h' := congrArg List.head? h
      exact absurd h2 (by decide)
    · have h2 : some 'n' = some 'h' := congrArg List.head? h
      exact absurd h2 (by decide))

/-- C4: for a scheme `http` or `https` and a non-empty host without `/`, the URL built from
scheme + `://` + host has protocol = scheme, domain = host, and empty path and query. -/
theorem parse_host_only (scheme host : Str)
    (hscheme : scheme = "http".toList ∨ scheme = "https".toList)
    (hhost : host ≠ []) (hhost2 : ∀ c ∈ host, c ≠ '/') :
    (URL.new (scheme ++ "://".toList ++ host)).getProtocol = scheme ∧
    (URL.new (scheme ++ "://".toList ++ host)).getDomain = host ∧
    (URL.new (scheme ++ "://".toList ++ host)).getPath = [] ∧
    (URL.new (scheme ++ "://".toList ++ host)).getQuery = [] := by
  have h := URL.new_greedy scheme host [] [] [] hscheme hhost hhost2 (by simp) (by simp)
    (Or.inl rfl) (Or.inl rfl)
  have hlit : "://".toList = [':', '/', '/'] := rfl
  simp only [List.append_nil] at h
  rw [hlit, h]
  exact ⟨rfl, rfl, rfl, rfl⟩

/-- C4, witness: `http://example.com` gives `http`, `example.com`, empty path, empty query. -/
theorem parse_host_only_witness :
    (URL.new "http://example.com".toList).getProtocol = "http".toList ∧
    (URL.new "http://example.com".toList).getDomain = "example.com".toList ∧
    (URL.new "http://example.com".toList).getPath = [] ∧
    (URL.new "http://example.com".toList).getQuery = [] :=
  parse_host_only "http".toList "example.com".toList (Or.inl rfl) (by decide) (by decide)

/-- C5: after construction either all four fields are empty, or the protocol is `http` or
`https`, the domain is non-empty without `/`, the path has neither `?` nor `#`, and the query is
empty or begins with `?` and has no `#`. -/
theorem url_field_invariant (input : Str) :
    ((URL.new input).getProtocol = [] ∧ (URL.new input).getDomain = [] ∧
      (URL.new input).getPath = [] ∧ (URL.new input).getQuery = []) ∨
    (((URL.new input).getProtocol = "http".toList ∨
        (URL.new input).getProtocol = "https".toList) ∧
      (URL.new input).getDomain ≠ [] ∧ '/' ∉ (URL.new input).getDomain ∧
      '?' ∉ (URL.new input).getPath ∧ '#' ∉ (URL.new input).getPath ∧
      ((URL.new input).getQuery = [] ∨
        ((URL.new input).getQuery.head? = some '?' ∧ '#' ∉ (URL.new input).getQuery))) := by
  rcases URL.new_cases input with ⟨-, hu⟩ | ⟨proto, dom, path, query, frag, -, -, hproto,
    hdom, hdom2, hpath, hquery, -, hu⟩
  · left
    rw [hu]
    exact ⟨rfl, rfl, rfl, rfl⟩
  · right
    rw [hu]
    simp only [URL.getProtocol, URL.getDomain, URL.getPath, URL.getQuery]
    refine ⟨hproto, hdom, fun h => hdom2 _ h rfl, fun h => (hpath _ h).1 rfl,
      fun h => (hpath _ h).2 rfl, ?_⟩
    rcases hquery with rfl | ⟨q, rfl, hq⟩
    · exact Or.inl rfl
    · refine Or.inr ⟨rfl, fun h => ?_⟩
      rcases List.mem_cons.1 h with h1 | h1
      · exact absurd h1 (by decide)
      · exact hq _ h1 rfl

/-! ## Request serialisation -/

theorem digitChar_value (k : Nat) (hk : k < 10) :
    (Nat.digitChar k).toNat - '0'.toNat = k := by
  interval_cases k <;> rfl

theorem foldl_toDigitsCore (fuel : Nat) :
    ∀ (n : Nat) (ds : List Char), n < fuel →
      (Nat.toDigitsCore 10 fuel n ds).foldl (fun acc d => 10 * acc + (d.toNat - '0'.toNat)) 0
        = ds.foldl (fun acc d => 10 * acc + (d.toNat - '0'.toNat)) n := by
  induction fuel with
  | zero => intro n ds h; omega
  | succ fuel ih =>
    intro n ds h
    have hd := digitChar_value (n % 10) (Nat.mod_lt n (by decide))
    unfold Nat.toDigitsCore
    by_cases h0 : n / 10 = 0
    · simp only [h0, if_true, List.foldl_cons, hd]
      congr 1
      omega
    · simp only [h0, if_false]
      rw [ih (n / 10) _ (by omega)]
      simp only [List.foldl_cons, hd]
      congr 1
      omega

/-- The digits written by `to_string` denote the number. -/
theorem digitsValue_to_string (n : Nat) : digitsValue (to_string n) = n := by
  unfold digitsValue to_string Nat.toDigits
  rw [foldl_toDigitsCore (n + 1) n [] (Nat.lt_succ_self n)]
  rfl

/-- C6: with a single non-empty body `b` the request is the request line, the `Host` and
`Connection: close` headers, `Content-Length` with the decimal length of `b`, the `Content-Type`
(`application/json` for `json = b`, `application/x-www-form-urlencoded` for `data = b`), a blank
line and `b` itself; the digits of `Content-Length` denote exactly the length of `b`. -/
theorem single_body_serialization (req : Request) (method b : Str) (hb : b ≠ []) :
    req.requestData method [] b =
      (method ++ " ".toList ++ req.url.getPath ++ req.url.getQuery ++ " HTTP/1.1\r\n".toList
          ++ "Host: ".toList ++ req.url.getDomain ++ "\r\n".toList
          ++ "Connection: close\r\n".toList)
        ++ "Content-Length: ".toList ++ to_string b.length
        ++ "\r\nContent-Type: application/json\r\n\r\n".toList ++ b ∧
    req.requestData method b [] =
      (method ++ " ".toList ++ req.url.getPath ++ req.url.getQuery ++ " HTTP/1.1\r\n".toList
          ++ "Host: ".toList ++ req.url.getDomain ++ "\r\n".toList
          ++ "Connection: close\r\n".toList)
        ++ "Content-Length: ".toList ++ to_string b.length
        ++ "\r\nContent-Type: application/x-www-form-urlencoded\r\n\r\n".toList ++ b ∧
    digitsValue (to_string b.length) = b.length := by
  have hj : "\r\nContent-Type: application/json\r\n\r\n".toList
      = "\r\n".toList ++ ("Content-Type: application/json\r\n".toList ++ "\r\n".toList) := rfl
  have hf : "\r\nContent-Type: application/x-www-form-urlencoded\r\n\r\n".toList
      = "\r\n".toList
        ++ ("Content-Type: application/x-www-form-urlencoded\r\n".toList ++ "\r\n".toList) := rfl
  cases b with
  | nil => exact absurd rfl hb
  | cons x xs =>
    refine ⟨?_, ?_, digitsValue_to_string _⟩
    · rw [hj]
      simp only [Request.requestData, List.isEmpty_cons, List.isEmpty_nil, Bool.not_false,
        Bool.not_true, Bool.false_eq_true, if_true, if_false, List.append_assoc]
    · rw [hf]
      simp only [Request.requestData, List.isEmpty_cons, List.isEmpty_nil, Bool.not_false,
        Bool.not_true, Bool.false_eq_true, if_true, if_false, List.append_assoc]

/-- C6, witness: `POST` with `json = {"a":1}` gives `Content-Length: 7` and the body
`{"a":1}`. -/
theorem single_body_serialization_witness :
    (Request.mk (URL.new "http://example.com/api".toList)).requestData "POST".toList []
        "\x7b\"a\":1\x7d".toList
      = "POST /api HTTP/1.1\r\nHost: example.com\r\nConnection: close\r\nContent-Length: 7\r\nContent-Type: application/json\r\n\r\n\x7b\"a\":1\x7d".toList :=
  (single_body_serialization (Request.mk (URL.new "http://example.com/api".toList))
    "POST".toList "\x7b\"a\":1\x7d".toList (by decide)).1

/-- C7, the code at the failing input: without a body the serialised request is the request line
and the two headers and ends with `Connection: close\r\n`, for every method and URL; so `GET` of
`http://example.com/` is written without the blank line that ends the header block. -/
theorem no_body_serialization_lacks_blank_line :
    (∀ (req : Request) (method : Str),
      req.requestData method [] [] =
        method ++ " ".toList ++ req.url.getPath ++ req.url.getQuery ++ " HTTP/1.1\r\n".toList
          ++ "Host: ".toList ++ req.url.getDomain ++ "\r\n".toList
          ++ "Connection: close\r\n".toList) ∧
    (Request.mk (URL.new "http://example.com/".toList)).requestData "GET".toList [] []
      = "GET / HTTP/1.1\r\nHost: example.com\r\nConnection: close\r\n".toList ∧
    (Request.mk (URL.new "http://example.com/".toList)).requestData "GET".toList [] []
      ≠ "GET / HTTP/1.1\r\nHost: example.com\r\nConnection: close\r\n\r\n".toList := by
  refine ⟨fun req method => ?_, by decide, by decide⟩
  simp only [Request.requestData, List.isEmpty_nil, Bool.not_true, Bool.false_eq_true, if_false,
    List.append_assoc]

/-- C8: with a non-empty `json = j` and a non-empty `data = d` together, the request is the
request line and the two headers, then the JSON block and then the form block, each with its own
`Content-Length`, `Content-Type`, blank line and body. -/
theorem double_body_serialization (req : Request) (method j d : Str) (hj : j ≠ [])
    (hd : d ≠ []) :
    req.requestData method d j =
      (method ++ " ".toList ++ req.url.getPath ++ req.url.getQuery ++ " HTTP/1.1\r\n".toList
          ++ "Host: ".toList ++ req.url.getDomain ++ "\r\n".toList
          ++ "Connection: close\r\n".toList)
        ++ ("Content-Length: ".toList ++ to_string j.length
          ++ "\r\nContent-Type: application/json\r\n\r\n".toList ++ j)
        ++ ("Content-Length: ".toList ++ to_string d.length
          ++ "\r\nContent-Type: application/x-www-form-urlencoded\r\n\r\n".toList ++ d) := by
  have h1 : "\r\nContent-Type: application/json\r\n\r\n".toList
      = "\r\n".toList ++ ("Content-Type: application/json\r\n".toList ++ "\r\n".toList) := rfl
  have h2 : "\r\nContent-Type: application/x-www-form-urlencoded\r\n\r\n".toList
      = "\r\n".toList
        ++ ("Content-Type: application/x-www-form-urlencoded\r\n".toList ++ "\r\n".toList) := rfl
  cases j with
  | nil => exact absurd rfl hj
  | cons x xs =>
    cases d with
    | nil => exact absurd rfl hd
    | cons y ys =>
      rw [h1, h2]
      simp only [Request.requestData, List.isEmpty_cons, Bool.not_false, if_true,
        List.append_assoc]

/-- C8, witness: `POST` with `json = {"a":1}` and `data = x=1` carries both blocks, the JSON
block first. -/
theorem double_body_serialization_witness :
    (Request.mk (URL.new "http://example.com/api".toList)).requestData "POST".toList
        "x=1".toList "\x7b\"a\":1\x7d".toList
      = "POST /api HTTP/1.1\r\nHost: example.com\r\nConnection: close\r\nContent-Length: 7\r\nContent-Type: application/json\r\n\r\n\x7b\"a\":1\x7dContent-Length: 3\r\nContent-Type: application/x-www-form-urlencoded\r\n\r\nx=1".toList :=
  double_body_serialization (Request.mk (URL.new "http://example.com/api".toList))
    "POST".toList "\x7b\"a\":1\x7d".toList "x=1".toList (by decide) (by decide)

theorem Request.requestData_method (req : Request) (method data json : Str) :
    req.requestData method data json = method ++ req.requestData [] data json := by
  cases json <;> cases data <;>
    simp only [Request.requestData, List.isEmpty_cons, List.isEmpty_nil, Bool.not_false,
      Bool.not_true, Bool.false_eq_true, if_true, if_false, List.append_assoc, List.nil_append]

theorem Request.performRequest_requestData (req : Request) (t : Transport)
    (method data json : Str) :
    (req.performRequest t method data json).requestData = req.requestData method data json := by
  unfold Request.performRequest
  dsimp only
  split_ifs <;> try rfl
  split <;> rfl

theorem Request.performRequest_response (req : Request) (t : Transport)
    (m1 m2 data json : Str) :
    (req.performRequest t m1 data json).response
      = (req.performRequest t m2 data json).response := by
  unfold Request.performRequest
  dsimp only
  split_ifs <;> try rfl
  split <;> rfl

/-- C9: there is one string `S`, fixed by the URL, `data` and `json`, such that `get`, `post`,
`put` and `del` serialise `GET` + `S`, `POST` + `S`, `PUT` + `S` and `DELETE` + `S`, and under
the same transport behaviour the four operations return the same `Response`. -/
theorem methods_differ_only_in_token (req : Request) (data json : Str) :
    ∃ S : Str, ∀ t : Transport,
      (req.get t data json).requestData = "GET".toList ++ S ∧
      (req.post t data json).requestData = "POST".toList ++ S ∧
      (req.put t data json).requestData = "PUT".toList ++ S ∧
      (req.del t data json).requestData = "DELETE".toList ++ S ∧
      (req.post t data json).response = (req.get t data json).response ∧
      (req.put t data json).response = (req.get t data json).response ∧
      (req.del t data json).response = (req.get t data json).response := by
  refine ⟨req.requestData [] data json, fun t => ⟨?_, ?_, ?_, ?_, ?_, ?_, ?_⟩⟩
  · rw [Request.get, Request.performRequest_requestData, Request.requestData_method]
  · rw [Request.post, Request.performRequest_requestData, Request.requestData_method]
  · rw [Request.put, Request.performRequest_requestData, Request.requestData_method]
  · rw [Request.del, Request.performRequest_requestData, Request.requestData_method]
  · exact Request.performRequest_response req t _ _ data json
  · exact Request.performRequest_response req t _ _ data json
  · exact Request.performRequest_response req t _ _ data json

/-! ## Status line -/

theorem findAux_space (post : Str) :
    ∀ (pre : Str) (i : Nat), ' ' ∉ pre →
      findAux [' '] (pre ++ ' ' :: post) i = some (i + pre.length)
  | [], i, _ => by simp [findAux, List.isPrefixOf]
  | x :: xs, i, h => by
    have hx : ¬ (' ' = x) := fun hc => h (hc ▸ List.mem_cons_self _ xs)
    have hxs : ' ' ∉ xs := fun hc => h (List.mem_cons_of_mem x hc)
    have hrec := findAux_space post xs (i + 1) hxs
    simp [findAux, List.isPrefixOf, hx, hrec]
    omega

theorem findAux_crlf_skip (c : Char) (post : Str) (hc : c ≠ '\n') :
    ∀ (pre : Str) (i : Nat), ¬ (['\r', '\n'] <:+: pre) →
      findAux ['\r', '\n'] (pre ++ c :: post) i = findAux ['\r', '\n'] (c :: post) (i + pre.length)
  | [], i, _ => by simp
  | x :: xs, i, h => by
    have hxs : ¬ (['\r', '\n'] <:+: xs) := fun hc => h (hc.trans (List.suffix_cons x xs).isInfix)
    have hrec := findAux_crlf_skip c post hc xs (i + 1) hxs
    have hpre : List.isPrefixOf ['\r', '\n'] (x :: xs ++ c :: post) = false := by
      cases xs with
      | nil =>
        have : ¬ ('\n' = c) := fun h => hc h.symm
        simp [List.isPrefixOf, this]
      | cons y ys =>
        by_cases hx : x = '\r'
        · by_cases hy : y = '\n'
          · exact absurd (List.prefix_append ['\r', '\n'] ys).isInfix (by simpa [hx, hy] using h)
          · have : ¬ ('\n' = y) := fun h => hy h.symm
            simp [List.isPrefixOf, this]
        · have : ¬ ('\r' = x) := fun h => hx h.symm
          simp [List.isPrefixOf, this]
    rw [List.cons_append] at hpre ⊢
    rw [findAux, hpre, if_neg (by simp), hrec]
    congr 1
    simp only [List.length_cons]
    omega

theorem isDigit_bounds (d : Char) (h : d.isDigit = true) : 48 ≤ d.toNat ∧ d.toNat ≤ 57 := by
  simp only [Char.isDigit, Bool.and_eq_true, decide_eq_true_eq] at h
  exact ⟨h.1, h.2⟩

theorem isDigit_cases (d : Char) (h : d.isDigit = true) :
    d ∈ ['0', '1', '2', '3', '4', '5', '6', '7', '8', '9'] := by
  obtain ⟨h1, h2⟩ := isDigit_bounds d h
  have h3 : d = Char.ofNat d.toNat := (Char.ofNat_toNat d).symm
  rw [h3]
  generalize d.toNat = n at h1 h2
  interval_cases n <;> decide

theorem takeWhile_all {α : Type} (p : α → Bool) :
    ∀ l : List α, (∀ x ∈ l, p x = true) → l.takeWhile p = l
  | [], _ => rfl
  | x :: xs, h => by
    have hx : p x = true := h x (List.mem_cons_self x xs)
    have hrec := takeWhile_all p xs (fun y hy => h y (List.mem_cons_of_mem x hy))
    simp [List.takeWhile, hx, hrec]

/-- The function `stoi` on a non-empty run of digits whose value fits an `int`. -/
theorem stoi_digits (d : Char) (ds : Str) (hd : d.isDigit = true)
    (hds : ∀ c ∈ ds, c.isDigit = true) (hv : digitsValue (d :: ds) ≤ 2147483647) :
    stoi (d :: ds) = .ok (digitsValue (d :: ds) : Int) := by
  have htw : (d :: ds).takeWhile Char.isDigit = d :: ds :=
    takeWhile_all _ _ (fun c hc => by
      rcases List.mem_cons.1 hc with h | h
      · rw [h]; exact hd
      · exact hds c h)
  have hsp : isspace d = false := by
    have hc := isDigit_cases d hd
    simp only [List.mem_cons, List.mem_singleton, List.not_mem_nil, or_false] at hc
    rcases hc with h | h | h | h | h | h | h | h | h | h <;> subst h <;> rfl
  have hdw : (d :: ds).dropWhile isspace = d :: ds := by
    simp [List.dropWhile, hsp]
  have hminus : d ≠ '-' := fun h => by subst h; exact absurd hd (by decide)
  have hplus : d ≠ '+' := fun h => by subst h; exact absurd hd (by decide)
  have hv2 : ¬ ((digitsValue (d :: ds) : Int) < -2147483648 ∨
      2147483647 < (digitsValue (d :: ds) : Int)) := by omega
  unfold stoi
  rw [hdw]
  split
  · rename_i r heq
    exact absurd (List.cons.inj heq).1 hminus
  · rename_i r heq
    exact absurd (List.cons.inj heq).1 hplus
  · simp only [stoiValue, htw, List.isEmpty_cons, Bool.false_eq_true, if_false, hv2]

theorem isDigit_ne (d c : Char) (hd : d.isDigit = true) (hc : c.isDigit = false) : ¬ (c = d) :=
  fun h => by
    subst h
    rw [hd] at hc
    exact absurd hc (by decide)

theorem digit_value_le (d : Char) (hd : d.isDigit = true) : d.toNat - '0'.toNat ≤ 9 := by
  have h := (isDigit_bounds d hd).2
  have h0 : '0'.toNat = 48 := rfl
  omega

/-- The position of the first `\r\n` in a status line followed by `\r\n`. -/
theorem find_crlf_status_line (version reason more : Str) (d1 d2 d3 : Char)
    (hversion : ¬ (['\r', '\n'] <:+: version)) (hreason : ¬ (['\r', '\n'] <:+: reason))
    (h1 : d1.isDigit = true) (h2 : d2.isDigit = true) (h3 : d3.isDigit = true) :
    find (version ++ ' ' :: d1 :: d2 :: d3 :: ' ' :: (reason ++ '\r' :: '\n' :: more))
        ['\r', '\n']
      = some (version.length + 5 + reason.length) := by
  have e1 := isDigit_ne d1 '\r' h1 (by decide)
  have e2 := isDigit_ne d2 '\r' h2 (by decide)
  have e3 := isDigit_ne d3 '\r' h3 (by decide)
  unfold find
  rw [if_pos (Nat.zero_le _), List.drop_zero,
    findAux_crlf_skip ' ' _ (by decide) version 0 hversion]
  simp only [findAux, List.isPrefixOf, e1, e2, e3, beq_iff_eq, Bool.false_and, Bool.false_eq_true,
    if_false, (by decide : ¬ ('\r' = ' '))]
  rw [findAux_crlf_skip '\r' _ (by decide) reason _ hreason]
  simp [findAux, List.isPrefixOf, e1, e2, e3]

/-- The status parsed from a status line `version code reason` with a three-digit code. -/
theorem parseStatus_status_line (version reason more : Str) (d1 d2 d3 : Char) (st : statuscode)
    (hversion : ' ' ∉ version)
    (h1 : d1.isDigit = true) (h2 : d2.isDigit = true) (h3 : d3.isDigit = true) :
    parseStatus (version ++ ' ' :: d1 :: d2 :: d3 :: ' ' :: (reason ++ '\r' :: '\n' :: more))
        (version.length + 5 + reason.length) st
      = .ok (digitsValue [d1, d2, d3] : Int) := by
  have e1 := isDigit_ne d1 ' ' h1 (by decide)
  have e2 := isDigit_ne d2 ' ' h2 (by decide)
  have e3 := isDigit_ne d3 ' ' h3 (by decide)
  have hline : substr (version ++ ' ' :: d1 :: d2 :: d3 :: ' ' :: (reason ++ '\r' :: '\n' :: more))
      0 (version.length + 5 + reason.length)
      = version ++ ' ' :: d1 :: d2 :: d3 :: ' ' :: reason := by
    have hsplit : version ++ ' ' :: d1 :: d2 :: d3 :: ' ' :: (reason ++ '\r' :: '\n' :: more)
        = (version ++ ' ' :: d1 :: d2 :: d3 :: ' ' :: reason) ++ '\r' :: '\n' :: more := by
      simp
    unfold substr
    rw [List.drop_zero, hsplit]
    apply List.take_left'
    simp only [List.length_append, List.length_cons]
    omega
  have hstart : find (version ++ ' ' :: d1 :: d2 :: d3 :: ' ' :: reason) [' ']
      = some version.length := by
    unfold find
    rw [if_pos (Nat.zero_le _), List.drop_zero, findAux_space _ version 0 hversion]
    simp
  have hend : find (version ++ ' ' :: d1 :: d2 :: d3 :: ' ' :: reason) [' ']
      (version.length + 1) = some (version.length + 4) := by
    have hdrop : (version ++ ' ' :: d1 :: d2 :: d3 :: ' ' :: reason).drop (version.length + 1)
        = d1 :: d2 :: d3 :: ' ' :: reason := by
      rw [show version ++ ' ' :: d1 :: d2 :: d3 :: ' ' :: reason
        = (version ++ [' ']) ++ d1 :: d2 :: d3 :: ' ' :: reason by simp]
      apply List.drop_left'
      simp
    unfold find
    rw [if_pos (by simp only [List.length_append, List.length_cons]; omega), hdrop]
    simp [findAux, List.isPrefixOf, e1, e2, e3]
  have hstr : substr (version ++ ' ' :: d1 :: d2 :: d3 :: ' ' :: reason) (version.length + 1)
      (version.length + 4 - version.length - 1) = [d1, d2, d3] := by
    have hdrop : (version ++ ' ' :: d1 :: d2 :: d3 :: ' ' :: reason).drop (version.length + 1)
        = d1 :: d2 :: d3 :: ' ' :: reason := by
      rw [show version ++ ' ' :: d1 :: d2 :: d3 :: ' ' :: reason
        = (version ++ [' ']) ++ d1 :: d2 :: d3 :: ' ' :: reason by simp]
      apply List.drop_left'
      simp
    have h3 : version.length + 4 - version.length - 1 = 3 := by omega
    unfold substr
    rw [hdrop, h3]
    rfl
  have hval : digitsValue [d1, d2, d3] ≤ 2147483647 := by
    have b1 := digit_value_le d1 h1
    have b2 := digit_value_le d2 h2
    have b3 := digit_value_le d3 h3
    simp only [digitsValue, List.foldl_cons, List.foldl_nil]
    omega
  unfold parseStatus
  have hsp : " ".toList = [' '] := rfl
  simp only [hline, hsp, hstart, hend, hstr]
  exact stoi_digits d1 [d2, d3] h1 (by
    intro c hc
    simp only [List.mem_cons, List.mem_singleton, List.not_mem_nil, or_false] at hc
    rcases hc with h | h <;> subst h <;> assumption) hval

/-- C10: when the transport is set up and the first chunk read begins with
`version code reason\r\n`, where `version` has no space and no `\r\n`, `code` is three decimal
digits and `reason` has no `\r\n`, the call returns a `Response` whose status is the integer
value of `code`. -/
theorem status_of_wellformed_line (req : Request) (t : Transport) (method data json : Str)
    (version reason more : Str) (d1 d2 d3 : Char) (rest : List ReadResult)
    (hsocket : 0 ≤ t.socket) (hhost : t.gethostbyname = true) (hconnect : 0 ≤ t.connect)
    (hwrite : 0 ≤ t.write)
    (hreads : t.reads = .bytes (version ++ " ".toList ++ [d1, d2, d3] ++ " ".toList ++ reason
      ++ "\r\n".toList ++ more) :: rest)
    (hversion : ' ' ∉ version) (hversion2 : ¬ ("\r\n".toList <:+: version))
    (h1 : d1.isDigit = true) (h2 : d2.isDigit = true) (h3 : d3.isDigit = true)
    (hreason : ¬ ("\r\n".toList <:+: reason)) :
    ∃ r : Response, (req.performRequest t method data json).response = .ok r ∧
      r.status = ((100 * (d1.toNat - '0'.toNat) + 10 * (d2.toNat - '0'.toNat)
        + (d3.toNat - '0'.toNat) : Nat) : Int) := by
  have hsp : " ".toList = [' '] := rfl
  have hcrlf : "\r\n".toList = ['\r', '\n'] := rfl
  rw [hcrlf] at hversion2 hreason
  have hchunk : version ++ " ".toList ++ [d1, d2, d3] ++ " ".toList ++ reason ++ "\r\n".toList
      ++ more = version ++ ' ' :: d1 :: d2 :: d3 :: ' ' :: (reason ++ '\r' :: '\n' :: more) := by
    rw [hsp, hcrlf]
    simp
  rw [hchunk] at hreads
  have hfind := find_crlf_status_line version reason more d1 d2 d3 hversion2 hreason h1 h2 h3
  have hparse := parseStatus_status_line version reason more d1 d2 d3 statuscode.Failed hversion
    h1 h2 h3
  have hloop : readLoop t.reads [] statuscode.Failed
      = .ok (version ++ ' ' :: d1 :: d2 :: d3 :: ' ' :: (reason ++ '\r' :: '\n' :: more),
          (digitsValue [d1, d2, d3] : Int)) := by
    rw [hreads]
    unfold readLoop
    rw [if_neg (by simp)]
    simp only [List.nil_append, hcrlf, hfind, hparse]
  refine ⟨{ raw := version ++ ' ' :: d1 :: d2 :: d3 :: ' ' :: (reason ++ '\r' :: '\n' :: more)
            status := (digitsValue [d1, d2, d3] : Int) }, ?_, ?_⟩
  · unfold Request.performRequest
    simp only [hloop, hhost, Bool.not_true, Bool.false_eq_true, if_false,
      not_lt.mpr hsocket, not_lt.mpr hconnect, not_lt.mpr hwrite]
  · simp only [digitsValue, List.foldl_cons, List.foldl_nil]
    congr 1
    omega

/-- C10, witness: the chunk `HTTP/1.1 404 Not Found\r\n...` gives status 404 (`NotFound`). -/
theorem status_of_wellformed_line_witness :
    ∃ r : Response,
      ((Request.mk (URL.new "http://example.com/".toList)).performRequest
        { openFds := [0, 1, 2], socket := 3, gethostbyname := true, connect := 0, write := 59
          reads := [.bytes "HTTP/1.1 404 Not Found\r\nContent-Length: 0\r\n\r\n".toList] }
        "GET".toList [] []).response = .ok r ∧
      r.status = statuscode.NotFound :=
  status_of_wellformed_line (Request.mk (URL.new "http://example.com/".toList))
    { openFds := [0, 1, 2], socket := 3, gethostbyname := true, connect := 0, write := 59
      reads := [.bytes "HTTP/1.1 404 Not Found\r\nContent-Length: 0\r\n\r\n".toList] }
    "GET".toList [] [] "HTTP/1.1".toList "Not Found".toList "Content-Length: 0\r\n\r\n".toList
    '4' '0' '4' [] (by decide) rfl (by decide) (by decide) rfl (by decide) (by decide)
    (by decide) (by decide) (by decide) (by decide)

/-! ## Status table -/

/-- C14: the enumerators of `statuscode`, with their values, are exactly the entries of the status
code table of the specification, symbol by symbol and in the same order; so every enumerator has
the decimal value the table lists and no enumerator is missing from the table. The table has 62
symbols and 61 distinct values (`MethodNotAllowed` and `NotAcceptable` are both 405). -/
theorem status_table_exact :
    statuscode.enumerators = specStatusCodeTable ∧
    statuscode.enumerators.length = 62 ∧
    (statuscode.enumerators.map Prod.snd).dedup.length = 61 := by
  decide

/-! ## Partition of a matched URL -/

/-- C19: for an input that matches the URL grammar, protocol + `://` + domain + path + query is
a prefix of the input, and what is left of the input is empty or begins with `#`. -/
theorem partition_of_matched_url (input : Str)
    (hmatch : (regex_match input urlRegex).isSome = true) :
    ∃ suffix : Str,
      input = (URL.new input).getProtocol ++ "://".toList ++ (URL.new input).getDomain
        ++ (URL.new input).getPath ++ (URL.new input).getQuery ++ suffix ∧
      (suffix = [] ∨ suffix.head? = some '#') := by
  rcases URL.new_cases input with ⟨hnone, -⟩ | ⟨proto, dom, path, query, frag, -, hs, -, -, -,
    -, -, hfrag, hu⟩
  · simp [hnone] at hmatch
  · refine ⟨frag, ?_, ?_⟩
    · rw [hu]
      exact hs
    · rcases hfrag with rfl | ⟨f, rfl, -⟩
      · exact Or.inl rfl
      · exact Or.inr rfl

/-- C19, witness: `http://example.com/a?b=c#top` splits into `http://example.com/a?b=c` and
`#top`. -/
theorem partition_of_matched_url_witness :
    ∃ suffix : Str,
      "http://example.com/a?b=c#top".toList
        = (URL.new "http://example.com/a?b=c#top".toList).getProtocol ++ "://".toList
          ++ (URL.new "http://example.com/a?b=c#top".toList).getDomain
          ++ (URL.new "http://example.com/a?b=c#top".toList).getPath
          ++ (URL.new "http://example.com/a?b=c#top".toList).getQuery ++ suffix ∧
      (suffix = [] ∨ suffix.head? = some '#') :=
  partition_of_matched_url "http://example.com/a?b=c#top".toList (by decide)

/-! ## Request against an invalid URL -/

/-- C17: for an input that does not match the URL grammar, every call of `performRequest` on the
`Request` built from `URL(input)` serialises a request that begins with the method, two spaces,
`HTTP/1.1`, an empty `Host` value and `Connection: close`; and when socket, name resolution and
connect succeed, that request is handed to `write`. -/
theorem invalid_url_still_requested (input method data json : Str) (t : Transport)
    (hinvalid : regex_match input urlRegex = none) :
    (method ++ "  HTTP/1.1\r\nHost: \r\nConnection: close\r\n".toList
      <+: ((Request.mk (URL.new input)).performRequest t method data json).requestData) ∧
    (0 ≤ t.socket → t.gethostbyname = true → 0 ≤ t.connect →
      ((Request.mk (URL.new input)).performRequest t method data json).written = true) := by
  have hu : URL.new input = { url := input } := by
    unfold URL.new URL.parseURL
    simp [hinvalid]
  constructor
  · rw [Request.performRequest_requestData, Request.requestData_method]
    have hlit : "  HTTP/1.1\r\nHost: \r\nConnection: close\r\n".toList
        = " ".toList ++ (" HTTP/1.1\r\n".toList ++ ("Host: ".toList ++ ("\r\n".toList
          ++ "Connection: close\r\n".toList))) := rfl
    rw [hlit, hu]
    cases json <;> cases data <;>
      simp only [Request.requestData, URL.getPath, URL.getQuery, URL.getDomain,
        List.isEmpty_cons, List.isEmpty_nil, Bool.not_false, Bool.not_true, Bool.false_eq_true,
        if_true, if_false, List.append_assoc, List.nil_append, List.append_nil,
        List.prefix_append_right_inj] <;>
      first
        | exact List.prefix_refl _
        | exact List.prefix_append _ _
  · intro hsocket hhost hconnect
    unfold Request.performRequest
    simp only [hhost, Bool.not_true, Bool.false_eq_true, if_false, not_lt.mpr hsocket,
      not_lt.mpr hconnect]
    split_ifs
    · rfl
    · split <;> rfl

/-- C17, witness: `not a url` with `GET` serialises a request that begins with
`GET  HTTP/1.1`, an empty `Host` and `Connection: close`. -/
theorem invalid_url_still_requested_witness :
    ("GET  HTTP/1.1\r\nHost: \r\nConnection: close\r\n".toList
      <+: ((Request.mk (URL.new "not a url".toList)).performRequest
        { openFds := [0, 1, 2], socket := 3, gethostbyname := true, connect := 0, write := 45
          reads := [] } "GET".toList [] []).requestData) ∧
    (0 ≤ (3 : Int) → true = true → 0 ≤ (0 : Int) →
      ((Request.mk (URL.new "not a url".toList)).performRequest
        { openFds := [0, 1, 2], socket := 3, gethostbyname := true, connect := 0, write := 45
          reads := [] } "GET".toList [] []).written = true) :=
  invalid_url_still_requested "not a url".toList "GET".toList [] []
    { openFds := [0, 1, 2], socket := 3, gethostbyname := true, connect := 0, write := 45
      reads := [] } rfl

/-! ## Failure paths of `performRequest` -/

theorem Request.performRequest_setup_failure (req : Request) (t : Transport)
    (method data json : Str)
    (h : t.socket < 0 ∨ t.gethostbyname = false ∨ t.connect < 0 ∨ t.write < 0) :
    (req.performRequest t method data json).response
      = .ok { raw := [], status := statuscode.Failed } := by
  unfold Request.performRequest
  dsimp only
  split_ifs <;> first | rfl | skip
  rename_i h1 h2 h3 h4
  rcases h with h | h | h | h
  · exact absurd h h1
  · simp [h] at h2
  · exact absurd h h3
  · exact absurd h h4

theorem Request.performRequest_reads (req : Request) (t : Transport) (method data json : Str)
    (hsocket : 0 ≤ t.socket) (hhost : t.gethostbyname = true) (hconnect : 0 ≤ t.connect)
    (hwrite : 0 ≤ t.write) :
    (req.performRequest t method data json).response
      = (readLoop t.reads [] statuscode.Failed).map
          (fun p => { raw := p.1, status := p.2 }) := by
  unfold Request.performRequest
  simp only [hhost, Bool.not_true, Bool.false_eq_true, if_false, not_lt.mpr hsocket,
    not_lt.mpr hconnect, not_lt.mpr hwrite]
  cases readLoop t.reads [] statuscode.Failed with
  | error e => rfl
  | ok p => rfl

/-- C11, the code at the failing input: a failure of `socket`, `gethostbyname`, `connect` or
`write`, or of the first `read`, returns raw = "" and status = `Failed`; but when `read` fails
after the chunk `HTTP/1.1 2` has been received, the call returns raw = `HTTP/1.1 2`. -/
theorem read_failure_keeps_partial_data :
    (∀ (req : Request) (t : Transport) (method data json : Str),
      (t.socket < 0 ∨ t.gethostbyname = false ∨ t.connect < 0 ∨ t.write < 0) →
      (req.performRequest t method data json).response
        = .ok { raw := [], status := statuscode.Failed }) ∧
    (∀ (req : Request) (t : Transport) (method data json : Str) (rest : List ReadResult),
      0 ≤ t.socket → t.gethostbyname = true → 0 ≤ t.connect → 0 ≤ t.write →
      t.reads = .error :: rest →
      (req.performRequest t method data json).response
        = .ok { raw := [], status := statuscode.Failed }) ∧
    ((Request.mk (URL.new "http://example.com/".toList)).get
        { openFds := [0, 1, 2], socket := 3, gethostbyname := true, connect := 0, write := 59
          reads := [.bytes "HTTP/1.1 2".toList, .error] }).response
      = .ok { raw := "HTTP/1.1 2".toList, status := statuscode.Failed } := by
  refine ⟨Request.performRequest_setup_failure, ?_, rfl⟩
  intro req t method data json rest hsocket hhost hconnect hwrite hreads
  rw [Request.performRequest_reads req t method data json hsocket hhost hconnect hwrite, hreads]
  rfl

/-- C12, the code at the failing input: when the second token of the status line is not a
number, is empty, or is too large for an `int`, `std::stoi` throws and the exception leaves
`get`; no `Response` is returned. -/
theorem stoi_exception_leaves_get :
    ((Request.mk (URL.new "http://example.com/".toList)).get
        { openFds := [0, 1, 2], socket := 3, gethostbyname := true, connect := 0, write := 59
          reads := [.bytes "HTTP/1.1 abc OK\r\n".toList] }).response
      = .error .invalid_argument ∧
    ((Request.mk (URL.new "http://example.com/".toList)).get
        { openFds := [0, 1, 2], socket := 3, gethostbyname := true, connect := 0, write := 59
          reads := [.bytes "HTTP/1.1  200 OK\r\n".toList] }).response
      = .error .invalid_argument ∧
    ((Request.mk (URL.new "http://example.com/".toList)).get
        { openFds := [0, 1, 2], socket := 3, gethostbyname := true, connect := 0, write := 59
          reads := [.bytes "HTTP/1.1 99999999999 OK\r\n".toList] }).response
      = .error .out_of_range :=
  ⟨rfl, rfl, rfl⟩

/-- C13, the code at the failing input: the peer sends the chunk `HTTP/1.1 200 OK\r\n` and then
the chunk `Content-Length: 2\r\n\r\nhi`; the loop stops after the first chunk, so raw is the
first chunk only and not the concatenation of the two. -/
theorem read_stops_after_status_line :
    ((Request.mk (URL.new "http://example.com/".toList)).get
        { openFds := [0, 1, 2], socket := 3, gethostbyname := true, connect := 0, write := 59
          reads := [.bytes "HTTP/1.1 200 OK\r\n".toList,
            .bytes "Content-Length: 2\r\n\r\nhi".toList] }).response
      = .ok { raw := "HTTP/1.1 200 OK\r\n".toList, status := statuscode.OK } ∧
    "HTTP/1.1 200 OK\r\n".toList
      ≠ "HTTP/1.1 200 OK\r\n".toList ++ "Content-Length: 2\r\n\r\nhi".toList :=
  ⟨rfl, by decide⟩

/-- C16, the code at the failing input: the socket is closed when the call runs to its end, and
nothing is opened when `socket` fails; but when `gethostbyname`, `connect` or `write` fails, or
`std::stoi` throws, the descriptor 3 that the call opened is still open afterwards. -/
theorem socket_left_open_on_early_return :
    (∀ (req : Request) (t : Transport) (method data json : Str) (r : Response),
      (req.performRequest t method data json).response = .ok r →
      0 ≤ t.socket → t.gethostbyname = true → 0 ≤ t.connect → 0 ≤ t.write →
      (req.performRequest t method data json).openFds = t.openFds) ∧
    (∀ (req : Request) (t : Transport) (method data json : Str),
      t.socket < 0 → (req.performRequest t method data json).openFds = t.openFds) ∧
    ((Request.mk (URL.new "http://example.com/".toList)).get
        { openFds := [0, 1, 2], socket := 3, gethostbyname := false, connect := 0, write := 59
          reads := [] }).openFds = [3, 0, 1, 2] ∧
    ((Request.mk (URL.new "http://example.com/".toList)).get
        { openFds := [0, 1, 2], socket := 3, gethostbyname := true, connect := -1, write := 59
          reads := [] }).openFds = [3, 0, 1, 2] ∧
    ((Request.mk (URL.new "http://example.com/".toList)).get
        { openFds := [0, 1, 2], socket := 3, gethostbyname := true, connect := 0, write := -1
          reads := [] }).openFds = [3, 0, 1, 2] ∧
    ((Request.mk (URL.new "http://example.com/".toList)).get
        { openFds := [0, 1, 2], socket := 3, gethostbyname := true, connect := 0, write := 59
          reads := [.bytes "HTTP/1.1 abc OK\r\n".toList] }).openFds = [3, 0, 1, 2] := by
  refine ⟨?_, ?_, by decide, by decide, by decide, by decide⟩
  · intro req t method data json r hr hsocket hhost hconnect hwrite
    unfold Request.performRequest at hr ⊢
    simp only [hhost, Bool.not_true, Bool.false_eq_true, if_false, not_lt.mpr hsocket,
      not_lt.mpr hconnect, not_lt.mpr hwrite] at hr ⊢
    cases hl : readLoop t.reads [] statuscode.Failed with
    | error e => simp [hl] at hr
    | ok p => simp
  · intro req t method data json hsocket
    unfold Request.performRequest
    simp only [hsocket, if_true]

/-! ## The read loop -/

theorem findAux_eq_none_iff (needle : Str) (hne : needle ≠ []) :
    ∀ (s : Str) (i : Nat), findAux needle s i = none ↔ ¬ (needle <:+: s)
  | [], i => by
    cases needle with
    | nil => exact absurd rfl hne
    | cons x xs => simp [findAux]
  | c :: cs, i => by
    have ih := findAux_eq_none_iff needle hne cs (i + 1)
    by_cases hp : needle.isPrefixOf (c :: cs) = true
    · have hpre : needle <+: c :: cs := List.isPrefixOf_iff_prefix.1 hp
      simp [findAux, hp, hpre.isInfix]
    · have hpre : ¬ (needle <+: c :: cs) := fun h => hp (List.isPrefixOf_iff_prefix.2 h)
      rw [findAux, if_neg hp, ih, List.infix_cons_iff]
      tauto

theorem findAux_some_inv (needle : Str) :
    ∀ (s : Str) (i j : Nat), findAux needle s i = some j →
      ∃ pre post, s = pre ++ needle ++ post ∧ j = i + pre.length
  | [], i, j, h => by
    cases needle with
    | nil =>
      refine ⟨[], [], rfl, ?_⟩
      simpa [findAux] using h.symm
    | cons x xs => simp [findAux] at h
  | c :: cs, i, j, h => by
    by_cases hp : needle.isPrefixOf (c :: cs) = true
    · obtain ⟨post, hpost⟩ := List.isPrefixOf_iff_prefix.1 hp
      refine ⟨[], post, by simpa using hpost.symm, ?_⟩
      simpa [findAux, hp] using h.symm
    · rw [findAux, if_neg hp] at h
      obtain ⟨pre, post, hs, hj⟩ := findAux_some_inv needle cs (i + 1) j h
      refine ⟨c :: pre, post, by simp [hs], ?_⟩
      simp only [List.length_cons]
      omega

theorem findAux_occurrence (needle post : Str) (hne : needle ≠ []) :
    ∀ (pre : Str) (i : Nat),
      ∃ j, findAux needle (pre ++ (needle ++ post)) i = some j ∧ j ≤ i + pre.length
  | [], i => by
    cases needle with
    | nil => exact absurd rfl hne
    | cons x xs =>
      refine ⟨i, ?_, Nat.le_add_right _ _⟩
      have hp : List.isPrefixOf (x :: xs) (x :: xs ++ post) = true :=
        List.isPrefixOf_iff_prefix.2 (List.prefix_append _ _)
      simp only [List.nil_append, List.cons_append] at hp ⊢
      rw [findAux, if_pos hp]
  | c :: cs, i => by
    by_cases hp : needle.isPrefixOf (c :: cs ++ (needle ++ post)) = true
    · refine ⟨i, ?_, Nat.le_add_right _ _⟩
      rw [List.cons_append] at hp ⊢
      rw [findAux, if_pos hp]
    · obtain ⟨j, hj, hle⟩ := findAux_occurrence needle post hne cs (i + 1)
      refine ⟨j, ?_, ?_⟩
      · rw [List.cons_append] at hp ⊢
        rw [findAux, if_neg hp, hj]
      · simp only [List.length_cons]
        omega

theorem find_eq_none_iff (s needle : Str) (hne : needle ≠ []) :
    find s needle = none ↔ ¬ (needle <:+: s) := by
  unfold find
  rw [if_pos (Nat.zero_le _), List.drop_zero]
  exact findAux_eq_none_iff needle hne s 0

/-- The loop on a run of non-empty chunks: it stops at the first chunk after which the bytes
accumulated hold a `\r\n`, and there the status is parsed; when no such chunk comes it goes on
with the reads that follow. -/
theorem readLoop_chunks (rest : List ReadResult) :
    ∀ (chunks : List Str) (acc : Str) (st : statuscode),
      (∀ c ∈ chunks, c ≠ []) → find acc "\r\n".toList = none →
      ∃ k, k ≤ chunks.length ∧
        (∀ j, j < k → find (acc ++ (chunks.take j).flatten) "\r\n".toList = none) ∧
        ((k = chunks.length ∧ find (acc ++ (chunks.take k).flatten) "\r\n".toList = none ∧
            readLoop (chunks.map .bytes ++ rest) acc st
              = readLoop rest (acc ++ (chunks.take k).flatten) st) ∨
          (∃ e, find (acc ++ (chunks.take k).flatten) "\r\n".toList = some e ∧
            readLoop (chunks.map .bytes ++ rest) acc st
              = (parseStatus (acc ++ (chunks.take k).flatten) e st).map
                  (fun s => (acc ++ (chunks.take k).flatten, s))))
  | [], acc, st, _, hacc =>
    ⟨0, Nat.le_refl _, fun j hj => absurd hj (Nat.not_lt_zero j),
      Or.inl ⟨rfl, by simpa using hacc, by simp⟩⟩
  | c :: cs, acc, st, hne, hacc => by
    have hc : c ≠ [] := hne c (List.mem_cons_self c cs)
    have hcs : ∀ x ∈ cs, x ≠ [] := fun x hx => hne x (List.mem_cons_of_mem c hx)
    have hce : c.isEmpty = false := by cases c with
      | nil => exact absurd rfl hc
      | cons _ _ => rfl
    have hstep : ∀ j, acc ++ ((c :: cs).take (j + 1)).flatten
        = (acc ++ c) ++ (cs.take j).flatten := by
      intro j
      simp
    cases hf : find (acc ++ c) "\r\n".toList with
    | some e =>
      refine ⟨1, by simp, ?_, Or.inr ⟨e, ?_, ?_⟩⟩
      · intro j hj
        have hj0 : j = 0 := by omega
        subst hj0
        simpa using hacc
      · rw [hstep 0]
        simpa using hf
      · rw [hstep 0]
        simp only [List.take_zero, List.flatten_nil, List.append_nil, List.map_cons,
          List.cons_append, readLoop, hce, Bool.false_eq_true, if_false, hf]
        cases parseStatus (acc ++ c) e st <;> rfl
    | none =>
      obtain ⟨k, hk, hlt, hres⟩ := readLoop_chunks rest cs (acc ++ c) st hcs hf
      have hloop : readLoop ((c :: cs).map .bytes ++ rest) acc st
          = readLoop (cs.map .bytes ++ rest) (acc ++ c) st := by
        simp only [List.map_cons, List.cons_append, readLoop, hce, Bool.false_eq_true, if_false,
          hf]
        rfl
      refine ⟨k + 1, by simpa using hk, ?_, ?_⟩
      · intro j hj
        cases j with
        | zero => simpa using hacc
        | succ j =>
          rw [hstep j]
          exact hlt j (by omega)
      · rw [hstep k, hloop]
        rcases hres with ⟨hkn, hnone, hrun⟩ | ⟨e, hsome, hrun⟩
        · exact Or.inl ⟨by simp [hkn], hnone, hrun⟩
        · exact Or.inr ⟨e, hsome, hrun⟩

theorem find_nil_crlf : find [] "\r\n".toList = none :=
  rfl

theorem find_crlf_line (line more : Str) (hline : ¬ (['\r', '\n'] <:+: line)) :
    find (line ++ '\r' :: '\n' :: more) ['\r', '\n'] = some line.length := by
  unfold find
  rw [if_pos (Nat.zero_le _), List.drop_zero,
    findAux_crlf_skip '\r' _ (by decide) line 0 hline]
  simp [findAux, List.isPrefixOf]

/-- A first line with fewer than two spaces leaves the status as it is. -/
theorem parseStatus_few_spaces (raw : Str) (e : Nat) (st : statuscode)
    (hspaces : (substr raw 0 e).count ' ' < 2) : parseStatus raw e st = .ok st := by
  unfold parseStatus
  dsimp only
  generalize substr raw 0 e = line at hspaces
  have hsp : " ".toList = [' '] := rfl
  rw [hsp]
  cases h1 : find line [' '] with
  | none => rfl
  | some start =>
    dsimp only
    have h1' : findAux [' '] line 0 = some start := by
      unfold find at h1
      rwa [if_pos (Nat.zero_le _), List.drop_zero] at h1
    obtain ⟨pre, post, hs, hstart⟩ := findAux_some_inv [' '] line 0 start h1'
    have hpost : ' ' ∉ post := by
      rw [hs] at hspaces
      simp only [List.count_append, List.count_cons_self, List.count_nil] at hspaces
      exact List.count_eq_zero.1 (by omega)
    have hdrop : line.drop (start + 1) = post := by
      rw [hs, hstart, Nat.zero_add, List.append_assoc]
      rw [show pre ++ ([' '] ++ post) = (pre ++ [' ']) ++ post by simp]
      apply List.drop_left'
      simp
    have h2 : find line [' '] (start + 1) = none := by
      unfold find
      split_ifs
      · rw [hdrop]
        apply (findAux_eq_none_iff [' '] (by decide) post _).2
        rintro ⟨a, b, hab⟩
        apply hpost
        rw [← hab]
        simp
      · rfl
    rw [h2]

/-- C20: when the transport is set up and the bytes received begin with a first line that has
fewer than two spaces, followed by `\r\n`, the call returns a `Response` with status `Failed`
whose raw is not empty: raw is made of the chunks read so far and begins with that line and its
`\r\n`. -/
theorem status_line_without_second_space (req : Request) (t : Transport)
    (method data json : Str) (chunks : List Str) (rest : List ReadResult) (line more : Str)
    (hsocket : 0 ≤ t.socket) (hhost : t.gethostbyname = true) (hconnect : 0 ≤ t.connect)
    (hwrite : 0 ≤ t.write)
    (hreads : t.reads = chunks.map .bytes ++ rest)
    (hchunks : ∀ c ∈ chunks, c ≠ [])
    (hstream : chunks.flatten = line ++ "\r\n".toList ++ more)
    (hline : ¬ ("\r\n".toList <:+: line))
    (hspaces : line.count ' ' < 2) :
    ∃ r : Response, (req.performRequest t method data json).response = .ok r ∧
      r.status = statuscode.Failed ∧ r.raw ≠ [] ∧
      (line ++ "\r\n".toList <+: r.raw) ∧
      ∃ k, r.raw = (chunks.take k).flatten := by
  have hcrlf : "\r\n".toList = ['\r', '\n'] := rfl
  have hne : "\r\n".toList ≠ [] := by decide
  rw [Request.performRequest_reads req t method data json hsocket hhost hconnect hwrite,
    hreads]
  obtain ⟨k, hk, -, hres⟩ := readLoop_chunks rest chunks [] statuscode.Failed hchunks
    find_nil_crlf
  simp only [List.nil_append] at hres
  rcases hres with ⟨hkn, hnone, -⟩ | ⟨e, hsome, hrun⟩
  · exfalso
    rw [hkn, List.take_length, hstream] at hnone
    apply (find_eq_none_iff _ _ hne).1 hnone
    rw [List.append_assoc]
    exact List.infix_append' line "\r\n".toList more
  · -- the bytes accumulated are a prefix of the stream and hold a `\r\n`
    have hprefix : (chunks.take k).flatten <+: line ++ "\r\n".toList ++ more := by
      rw [← hstream]
      refine ⟨(chunks.drop k).flatten, ?_⟩
      rw [← List.flatten_append, List.take_append_drop]
    have hsome' : findAux "\r\n".toList (chunks.take k).flatten 0 = some e := by
      unfold find at hsome
      rwa [if_pos (Nat.zero_le _), List.drop_zero] at hsome
    obtain ⟨pre, post, hraw, he⟩ := findAux_some_inv _ _ 0 e hsome'
    obtain ⟨tail, htail⟩ := hprefix
    have hfirst := find_crlf_line line more (by rw [← hcrlf]; exact hline)
    obtain ⟨j, hj, hjle⟩ := findAux_occurrence "\r\n".toList (post ++ tail) hne pre 0
    have hlen : line.length ≤ pre.length := by
      have hstr : pre ++ ("\r\n".toList ++ (post ++ tail)) = line ++ '\r' :: '\n' :: more := by
        rw [← List.append_assoc, ← List.append_assoc, ← hraw, htail, hcrlf]
        simp
      rw [hstr] at hj
      unfold find at hfirst
      rw [if_pos (Nat.zero_le _), List.drop_zero, ← hcrlf, hj] at hfirst
      cases hfirst
      omega
    have hlinepre : line ++ "\r\n".toList <+: (chunks.take k).flatten := by
      refine List.prefix_of_prefix_length_le (List.prefix_append (line ++ "\r\n".toList) more)
        ⟨tail, htail⟩ ?_
      rw [hraw]
      simp only [List.length_append]
      omega
    obtain ⟨more2, hmore2⟩ := hlinepre
    have hraw2 : (chunks.take k).flatten = line ++ '\r' :: '\n' :: more2 := by
      rw [← hmore2, hcrlf]
      simp
    have he2 : e = line.length := by
      have h := find_crlf_line line more2 (by rw [← hcrlf]; exact hline)
      rw [← hraw2, ← hcrlf, hsome] at h
      cases h
      rfl
    have hsub : substr (chunks.take k).flatten 0 e = line := by
      unfold substr
      rw [List.drop_zero, hraw2, he2]
      exact List.take_left' rfl
    have hparse := parseStatus_few_spaces (chunks.take k).flatten e statuscode.Failed
      (by rw [hsub]; exact hspaces)
    refine ⟨{ raw := (chunks.take k).flatten, status := statuscode.Failed }, ?_, rfl, ?_,
      ⟨more2, hmore2⟩, k, rfl⟩
    · rw [hrun, hparse]
      rfl
    · rw [hraw2]
      cases line <;> simp

/-- C20, witness: the answer `HTTP/1.1 200\r\n` has one space in its first line; the status is
`Failed` and raw is not empty. -/
theorem status_line_without_second_space_witness :
    ∃ r : Response,
      ((Request.mk (URL.new "http://example.com/".toList)).performRequest
        { openFds := [0, 1, 2], socket := 3, gethostbyname := true, connect := 0, write := 59
          reads := [.bytes "HTTP/1.1 200\r\n".toList] } "GET".toList [] []).response = .ok r ∧
      r.status = statuscode.Failed ∧ r.raw ≠ [] ∧
      ("HTTP/1.1 200".toList ++ "\r\n".toList <+: r.raw) ∧
      ∃ k, r.raw = (["HTTP/1.1 200\r\n".toList].take k).flatten :=
  status_line_without_second_space (Request.mk (URL.new "http://example.com/".toList))
    { openFds := [0, 1, 2], socket := 3, gethostbyname := true, connect := 0, write := 59
      reads := [.bytes "HTTP/1.1 200\r\n".toList] }
    "GET".toList [] [] ["HTTP/1.1 200\r\n".toList] [] "HTTP/1.1 200".toList []
    (by decide) rfl (by decide) (by decide) rfl (by decide) rfl (by decide) (by decide)

end NeoUrl
